import Mathlib

/-!
# Verification of the nurse-assignment calculation engine

This file gives a shallow embedding, in Lean 4, of the assignment engine of
the nurse-assignment-calculator repository (`src/utils/assignmentCalculator.ts`
and `src/utils/roomParser.ts`) and proves properties of it.

Modelling conventions:
* Room numbers (`number` in TypeScript, always integral here) are `Int`.
* Staff counts and capacity limits are `Nat` (the UI produces non-negative
  integer counts; all arithmetic on them in the source is integer arithmetic).
* `Array.prototype.sort((a, b) => a - b)` produces the unique ascending
  reordering of an integer array, embedded as `insertionSort (· ≤ ·)`.
* `Array.from(new Set(xs))` keeps the first occurrence of each element,
  embedded as `dedupFirst`.
* `Math.floor(a / b)` and `a % b` on non-negative integers are `Nat` `/`, `%`;
  `Math.ceil(p / k)` (for `k > 0`) is `(p + k - 1) / k`.
* The one `throw` in `calculateStaffAssignments` is modelled with `Except`.
-/

/-! ## Definitions: the shallow embedding of the source code -/

/-- Ascending numeric sort, the effect of `.sort((a, b) => a - b)`. -/
def sortRooms (l : List Int) : List Int :=
  l.insertionSort (fun a b => a ≤ b)

/-- First-occurrence deduplication, the effect of `Array.from(new Set(xs))`. -/
def dedupFirst : List Int → List Int
  | [] => []
  | x :: xs => x :: dedupFirst (xs.filter (fun y => y ≠ x))
termination_by l => l.length
decreasing_by
  simp only [List.length_cons]
  exact Nat.lt_succ_of_le (xs.length_filter_le _)

namespace RoomParser

/-- `roomParser.ts` `generateRoomRange`: throws when `rangeStart > rangeEnd`,
otherwise returns the inclusive integer range. -/
def generateRoomRange (rangeStart rangeEnd : Int) : Except String (List Int) :=
  if rangeStart > rangeEnd then
    .error "Start room number cannot be greater than end room number"
  else
    .ok ((List.range (rangeEnd - rangeStart + 1).toNat).map (fun (i : Nat) => rangeStart + (i : Int)))

end RoomParser

/-- `assignmentCalculator.ts` local helper `generateRoomRange`: the plain
counting loop, which yields the empty list when `rangeStart > rangeEnd`
(no validation, unlike `RoomParser.generateRoomRange`). -/
def generateRoomRange (rangeStart rangeEnd : Int) : List Int :=
  (List.range (rangeEnd - rangeStart + 1).toNat).map (fun (i : Nat) => rangeStart + (i : Int))

/-- `removeExcludedRooms`: keep the rooms not present in `excludedRooms`. -/
def removeExcludedRooms (allRooms excludedRooms : List Int) : List Int :=
  allRooms.filter (fun roomNumber => !(excludedRooms.contains roomNumber))

/-- `validateNursingCapacity`. -/
def validateNursingCapacity (totalPatientCount totalNurses maxPatientsPerNurse : Nat) : Bool :=
  totalPatientCount ≤ totalNurses * maxPatientsPerNurse

/-- `AideCoverageData`. -/
structure AideCoverageData where
  totalAideCapacity : Nat
  patientsWithoutAideSupport : Nat
deriving Repr, DecidableEq, Inhabited

/-- `calculateAideCoverageData`. -/
def calculateAideCoverageData (totalPatientCount totalAides maxPatientsPerAide : Nat) :
    AideCoverageData :=
  { totalAideCapacity := totalAides * maxPatientsPerAide
    patientsWithoutAideSupport := totalPatientCount - totalAides * maxPatientsPerAide }

/-- `processRoomList`: result is `(availableRooms, processedDischarges, processedAdmits)`. -/
def processRoomList (roomRangeStart roomRangeEnd : Int)
    (excludedRooms discharges admits : List Int) : List Int × List Int × List Int :=
  let allRoomsInRange := generateRoomRange roomRangeStart roomRangeEnd
  let availableRooms := removeExcludedRooms allRoomsInRange excludedRooms
  let processedDischarges := discharges.filter (fun room => availableRooms.contains room)
  let availableRooms2 := removeExcludedRooms availableRooms discharges
  let availableRooms3 :=
    if 0 < admits.length then sortRooms (dedupFirst (availableRooms2 ++ admits))
    else availableRooms2
  (availableRooms3, processedDischarges, admits)

/-- `CategorizedRooms`. -/
structure CategorizedRooms where
  highAcuityRooms : List Int
  highFallRiskRooms : List Int
  regularRooms : List Int
deriving Repr, DecidableEq

/-- `categorizeRoomsByPriority`: intersect the raw lists with the working set,
give acuity precedence, and let the remaining rooms be regular. -/
def categorizeRoomsByPriority (allRooms highAcuityRooms highFallRiskRooms : List Int) :
    CategorizedRooms :=
  let validHighAcuity := highAcuityRooms.filter (fun room => allRooms.contains room)
  let validHighFallRisk := highFallRiskRooms.filter
    (fun room => allRooms.contains room && !(validHighAcuity.contains room))
  let regularRooms := allRooms.filter
    (fun room => !(validHighAcuity.contains room) && !(validHighFallRisk.contains room))
  { highAcuityRooms := validHighAcuity
    highFallRiskRooms := validHighFallRisk
    regularRooms := regularRooms }

/-- The discriminated `roomType` argument of `assignRoomsRoundRobin`. -/
inductive RoomType where
  | highAcuity
  | highFallRisk
  | regular
deriving Repr, DecidableEq

/-- `RoomStatusData`. -/
structure RoomStatusData where
  discharges : List Int
  admits : List Int
  highAcuity : List Int
  highFallRisk : List Int
deriving Repr, DecidableEq

/-- `StaffAssignment`. -/
structure StaffAssignment where
  staffNumber : Nat
  assignedRooms : List Int
  patientCount : Nat
  highAcuityRooms : List Int
  highFallRiskRooms : List Int
  totalCareRooms : List Int
  dischargeRooms : List Int
  admitRooms : List Int
deriving Repr, DecidableEq, Inhabited

/-- One loop body of `assignRoomsRoundRobin`: push `room` onto the staff
member's lists (main list, the category list selected by `roomType`, and the
discharge/admit tracking lists when applicable). -/
def pushRoomTo (sa : StaffAssignment) (room : Int) (roomType : RoomType)
    (roomStatusData : RoomStatusData) : StaffAssignment where
  staffNumber := sa.staffNumber
  assignedRooms := sa.assignedRooms ++ [room]
  patientCount := sa.patientCount
  highAcuityRooms :=
    sa.highAcuityRooms ++ (if roomType = RoomType.highAcuity then [room] else [])
  highFallRiskRooms :=
    sa.highFallRiskRooms ++ (if roomType = RoomType.highFallRisk then [room] else [])
  totalCareRooms := sa.totalCareRooms
  dischargeRooms :=
    sa.dischargeRooms ++ (if roomStatusData.discharges.contains room then [room] else [])
  admitRooms :=
    sa.admitRooms ++ (if roomStatusData.admits.contains room then [room] else [])

/-- `assignRoomsRoundRobin`: walk the room list, assigning each room to the
staff member at the running index and stepping the index mod `staffCount`.
Returns the updated assignments and the final index. -/
def assignRoomsRoundRobin : List Int → Nat → List StaffAssignment → RoomType → Nat →
    RoomStatusData → List StaffAssignment × Nat
  | [], _, assignments, _, idx, _ => (assignments, idx)
  | room :: rest, staffCount, assignments, roomType, idx, rsd =>
    assignRoomsRoundRobin rest staffCount
      (assignments.set idx (pushRoomTo (assignments.getD idx default) room roomType rsd))
      roomType ((idx + 1) % staffCount) rsd

/-- `Math.ceil(p / k)` for natural `p`, `k` with `k > 0`. -/
def ceilDiv (p k : Nat) : Nat := (p + k - 1) / k

/-- The loop of `assignTotalCareRooms`: each nurse in order takes
`min(totalCarePerNurse, remaining, own room count)` rooms from the end of the
(not yet sorted) assigned-room list; the loop stops once `remaining` is 0. -/
def totalCareFold (perNurse : Nat) : List StaffAssignment → Nat → List StaffAssignment
  | [], _ => []
  | sa :: rest, remaining =>
    if remaining = 0 then sa :: rest
    else
      let cnt := min perNurse (min remaining sa.assignedRooms.length)
      { sa with totalCareRooms := sa.assignedRooms.drop (sa.assignedRooms.length - cnt) } ::
        totalCareFold perNurse rest (remaining - cnt)

/-- `assignTotalCareRooms`: no-op when no patient lacks aide support. -/
def assignTotalCareRooms (nurseAssignments : List StaffAssignment)
    (patientsWithoutAideSupport : Nat) : List StaffAssignment :=
  if patientsWithoutAideSupport = 0 then nurseAssignments
  else totalCareFold (ceilDiv patientsWithoutAideSupport nurseAssignments.length)
    nurseAssignments patientsWithoutAideSupport

/-- The finalization loop of `createNurseAssignments`: sort every room list
ascending and recompute `patientCount` as the room-list length. -/
def finalizeAssignment (sa : StaffAssignment) : StaffAssignment where
  staffNumber := sa.staffNumber
  assignedRooms := sortRooms sa.assignedRooms
  patientCount := (sortRooms sa.assignedRooms).length
  highAcuityRooms := sortRooms sa.highAcuityRooms
  highFallRiskRooms := sortRooms sa.highFallRiskRooms
  totalCareRooms := sortRooms sa.totalCareRooms
  dischargeRooms := sortRooms sa.dischargeRooms
  admitRooms := sortRooms sa.admitRooms

/-- The fresh nurse records created at the top of `createNurseAssignments`. -/
def initialNurseAssignments (totalNurses : Nat) : List StaffAssignment :=
  (List.range totalNurses).map (fun nurseIndex =>
    { staffNumber := nurseIndex + 1
      assignedRooms := []
      patientCount := 0
      highAcuityRooms := []
      highFallRiskRooms := []
      totalCareRooms := []
      dischargeRooms := []
      admitRooms := [] })

/-- `createNurseAssignments`: three chained round-robin passes (acuity, then
fall-risk, then regular), total-care assignment, then finalization. -/
def createNurseAssignments (allRooms : List Int) (totalNurses : Nat)
    (categorizedRooms : CategorizedRooms) (patientsWithoutAideSupport : Nat)
    (roomStatusData : RoomStatusData) : List StaffAssignment :=
  let na0 := initialNurseAssignments totalNurses
  let r1 := assignRoomsRoundRobin categorizedRooms.highAcuityRooms totalNurses na0
    RoomType.highAcuity 0 roomStatusData
  let r2 := assignRoomsRoundRobin categorizedRooms.highFallRiskRooms totalNurses r1.1
    RoomType.highFallRisk r1.2 roomStatusData
  let r3 := assignRoomsRoundRobin categorizedRooms.regularRooms totalNurses r2.1
    RoomType.regular r2.2 roomStatusData
  (assignTotalCareRooms r3.1 patientsWithoutAideSupport).map finalizeAssignment

/-- The aide loop of `createAideAssignments`, indexed by `aideIndex` and the
running `currentRoomIndex`. -/
def aideLoop (covered : List Int) (totalAides base extra : Nat) (rsd : RoomStatusData) :
    Nat → Nat → List StaffAssignment
  | aideIndex, currentRoomIndex =>
    if h : aideIndex < totalAides then
      let cnt := base + (if aideIndex < extra then 1 else 0)
      let assigned := (covered.drop currentRoomIndex).take cnt
      { staffNumber := aideIndex + 1
        assignedRooms := assigned
        patientCount := cnt
        highAcuityRooms := []
        highFallRiskRooms := []
        totalCareRooms := []
        dischargeRooms := assigned.filter (fun room => rsd.discharges.contains room)
        admitRooms := assigned.filter (fun room => rsd.admits.contains room) } ::
        aideLoop covered totalAides base extra rsd (aideIndex + 1) (currentRoomIndex + cnt)
    else []
termination_by aideIndex _ => totalAides - aideIndex

/-- `createAideAssignments`: contiguous slices of the first
`totalAideCapacity` rooms, `floor` base size with the first `len mod k` aides
receiving one extra room. -/
def createAideAssignments (allRooms : List Int) (totalAides totalAideCapacity : Nat)
    (roomStatusData : RoomStatusData) : List StaffAssignment :=
  if totalAides = 0 then []
  else
    let roomsWithAideCoverage := allRooms.take totalAideCapacity
    let baseRoomsPerAide := roomsWithAideCoverage.length / totalAides
    let extraRooms := roomsWithAideCoverage.length % totalAides
    aideLoop roomsWithAideCoverage totalAides baseRoomsPerAide extraRooms roomStatusData 0 0

/-- `AssignmentInputData`. -/
structure AssignmentInputData where
  roomRangeStart : Int
  roomRangeEnd : Int
  excludedRooms : List Int
  discharges : List Int
  admits : List Int
  highAcuityRooms : List Int
  highFallRiskRooms : List Int
  totalNurses : Nat
  totalAides : Nat
  maxPatientsPerNurse : Nat
  maxPatientsPerAide : Nat
deriving Repr, DecidableEq

/-- `AssignmentResults`. -/
structure AssignmentResults where
  totalPatientCount : Nat
  aideCoverageData : AideCoverageData
  nurseAssignments : List StaffAssignment
  aideAssignments : List StaffAssignment
  processedDischarges : List Int
  processedAdmits : List Int
deriving Repr, DecidableEq, Inhabited

/-- The single failure of `calculateStaffAssignments` (`throw new Error(...)`):
it carries the patient count and the computed maximum nursing capacity. -/
inductive CalcError where
  | insufficientCapacity (patientCount : Nat) (maxCapacity : Nat)
deriving Repr, DecidableEq

/-- `calculateStaffAssignments`: the orchestration function. -/
def calculateStaffAssignments (inputData : AssignmentInputData) :
    Except CalcError AssignmentResults :=
  let pr := processRoomList inputData.roomRangeStart inputData.roomRangeEnd
    inputData.excludedRooms inputData.discharges inputData.admits
  let availableRooms := pr.1
  let totalPatientCount := availableRooms.length
  if validateNursingCapacity totalPatientCount inputData.totalNurses
      inputData.maxPatientsPerNurse then
    let roomStatusData : RoomStatusData :=
      { discharges := pr.2.1
        admits := pr.2.2
        highAcuity := inputData.highAcuityRooms.filter (fun room => availableRooms.contains room)
        highFallRisk :=
          inputData.highFallRiskRooms.filter (fun room => availableRooms.contains room) }
    let aideCoverageData := calculateAideCoverageData totalPatientCount inputData.totalAides
      inputData.maxPatientsPerAide
    let categorizedRooms := categorizeRoomsByPriority availableRooms
      inputData.highAcuityRooms inputData.highFallRiskRooms
    .ok
      { totalPatientCount := totalPatientCount
        aideCoverageData := aideCoverageData
        nurseAssignments := createNurseAssignments availableRooms inputData.totalNurses
          categorizedRooms aideCoverageData.patientsWithoutAideSupport roomStatusData
        aideAssignments := createAideAssignments availableRooms inputData.totalAides
          aideCoverageData.totalAideCapacity roomStatusData
        processedDischarges := pr.2.1
        processedAdmits := pr.2.2 }
  else
    .error (CalcError.insufficientCapacity totalPatientCount
      (inputData.totalNurses * inputData.maxPatientsPerNurse))

/-- The working room set of an input: the `availableRooms` list built by
`processRoomList`. -/
def workingSet (inputData : AssignmentInputData) : List Int :=
  (processRoomList inputData.roomRangeStart inputData.roomRangeEnd
    inputData.excludedRooms inputData.discharges inputData.admits).1

def selectIdx (k : Nat) : List Int → Nat → Nat → List Int
  | [], _, _ => []
  | r :: rest, s, i => (if s = i then [r] else []) ++ selectIdx k rest ((s + 1) % k) i

/-- Number of positions `j < m` whose round-robin walk `(s + j) % k` lands on
staff index `i`. -/
def cntRR (k s m i : Nat) : Nat :=
  ((List.range m).filter (fun j => (s + j) % k = i)).length

/-- The per-nurse total-care counts of the loop in `assignTotalCareRooms`,
described from its observable behaviour: walking the nurses in order, each
takes `min(perNurse, remaining, own room count)`. -/
def specTotalCareCounts (perNurse : Nat) : List Nat → Nat → List Nat
  | [], _ => []
  | len :: rest, remaining =>
    min perNurse (min remaining len) ::
      specTotalCareCounts perNurse rest (remaining - min perNurse (min remaining len))

/-- The distribution order of nurse `i`: the rooms it receives, in arrival
order, across the three chained round-robin passes. -/
def nurseDistOrder (k : Nat) (cr : CategorizedRooms) (i : Nat) : List Int :=
  selectIdx k (cr.highAcuityRooms ++ (cr.highFallRiskRooms ++ cr.regularRooms)) 0 i

/-- The per-nurse room counts in nurse order. -/
def nurseLens (k : Nat) (cr : CategorizedRooms) : List Nat :=
  (List.range k).map (fun j => (nurseDistOrder k cr j).length)

/-- The number of total-care rooms nurse `i` ends up with. -/
def nurseQuota (k : Nat) (cr : CategorizedRooms) (p i : Nat) : Nat :=
  (specTotalCareCounts (ceilDiv p k) (nurseLens k cr) p).getD i 0

/-- The complete content of nurse `i`'s record just before finalization. -/
def preNurse (k : Nat) (cr : CategorizedRooms) (p : Nat) (rsd : RoomStatusData)
    (i : Nat) : StaffAssignment where
  staffNumber := i + 1
  assignedRooms := nurseDistOrder k cr i
  patientCount := 0
  highAcuityRooms := selectIdx k cr.highAcuityRooms 0 i
  highFallRiskRooms := selectIdx k cr.highFallRiskRooms (cr.highAcuityRooms.length % k) i
  totalCareRooms := (nurseDistOrder k cr i).drop
    ((nurseDistOrder k cr i).length - nurseQuota k cr p i)
  dischargeRooms := (nurseDistOrder k cr i).filter (fun room => rsd.discharges.contains room)
  admitRooms := (nurseDistOrder k cr i).filter (fun room => rsd.admits.contains room)

/-- `preNurse` with the total-care list still empty: the state of nurse `i`
after the three round-robin passes, before `assignTotalCareRooms`. -/
def preNurseNoTC (k : Nat) (cr : CategorizedRooms) (rsd : RoomStatusData) (i : Nat) :
    StaffAssignment where
  staffNumber := i + 1
  assignedRooms := nurseDistOrder k cr i
  patientCount := 0
  highAcuityRooms := selectIdx k cr.highAcuityRooms 0 i
  highFallRiskRooms := selectIdx k cr.highFallRiskRooms (cr.highAcuityRooms.length % k) i
  totalCareRooms := []
  dischargeRooms := (nurseDistOrder k cr i).filter (fun room => rsd.discharges.contains room)
  admitRooms := (nurseDistOrder k cr i).filter (fun room => rsd.admits.contains room)

/-- The `roomStatusData` record built inside `calculateStaffAssignments`. -/
def calcRoomStatusData (input : AssignmentInputData) : RoomStatusData where
  discharges := (processRoomList input.roomRangeStart input.roomRangeEnd
    input.excludedRooms input.discharges input.admits).2.1
  admits := (processRoomList input.roomRangeStart input.roomRangeEnd
    input.excludedRooms input.discharges input.admits).2.2
  highAcuity := input.highAcuityRooms.filter (fun room => (workingSet input).contains room)
  highFallRisk :=
    input.highFallRiskRooms.filter (fun room => (workingSet input).contains room)

/-- The successful result of a calculation (meaningful when the capacity
check passes). -/
def calcResult (input : AssignmentInputData) : AssignmentResults :=
  ((calculateStaffAssignments input).toOption).getD default

instance exceptDecEq {e a : Type} [DecidableEq e] [DecidableEq a] :
    DecidableEq (Except e a) := fun x y =>
  match x, y with
  | .ok v, .ok w => if h : v = w then .isTrue (by rw [h]) else .isFalse (by simp [h])
  | .error v, .error w => if h : v = w then .isTrue (by rw [h]) else .isFalse (by simp [h])
  | .ok _, .error _ => .isFalse (by simp)
  | .error _, .ok _ => .isFalse (by simp)

def c1InputW : AssignmentInputData :=
  { roomRangeStart := 1, roomRangeEnd := 3, excludedRooms := [], discharges := [],
    admits := [], highAcuityRooms := [], highFallRiskRooms := [],
    totalNurses := 1, totalAides := 0, maxPatientsPerNurse := 2, maxPatientsPerAide := 0 }

def c4Input : AssignmentInputData :=
  { roomRangeStart := 5, roomRangeEnd := 3, excludedRooms := [], discharges := [],
    admits := [], highAcuityRooms := [], highFallRiskRooms := [],
    totalNurses := 2, totalAides := 1, maxPatientsPerNurse := 3, maxPatientsPerAide := 2 }

def c4InputW : AssignmentInputData :=
  { roomRangeStart := 7, roomRangeEnd := 5, excludedRooms := [2], discharges := [],
    admits := [], highAcuityRooms := [], highFallRiskRooms := [],
    totalNurses := 1, totalAides := 0, maxPatientsPerNurse := 4, maxPatientsPerAide := 0 }

def c3InputW : AssignmentInputData :=
  { roomRangeStart := 1, roomRangeEnd := 5, excludedRooms := [], discharges := [],
    admits := [], highAcuityRooms := [1, 2, 3], highFallRiskRooms := [4],
    totalNurses := 2, totalAides := 0, maxPatientsPerNurse := 8, maxPatientsPerAide := 0 }

def c2Input : AssignmentInputData :=
  { roomRangeStart := 1, roomRangeEnd := 2, excludedRooms := [], discharges := [],
    admits := [], highAcuityRooms := [1, 1], highFallRiskRooms := [],
    totalNurses := 1, totalAides := 0, maxPatientsPerNurse := 10, maxPatientsPerAide := 0 }

def c6Input : AssignmentInputData :=
  { roomRangeStart := 1, roomRangeEnd := 2, excludedRooms := [], discharges := [],
    admits := [], highAcuityRooms := [1, 2, 2], highFallRiskRooms := [],
    totalNurses := 1, totalAides := 0, maxPatientsPerNurse := 8, maxPatientsPerAide := 0 }

/-- The categorization computed inside `calculateStaffAssignments`. -/
def crOf (input : AssignmentInputData) : CategorizedRooms :=
  categorizeRoomsByPriority (workingSet input) input.highAcuityRooms
    input.highFallRiskRooms

/-- The uncovered patient count (`patientsWithoutAideSupport`) of an input. -/
def uncoveredOf (input : AssignmentInputData) : Nat :=
  (workingSet input).length - input.totalAides * input.maxPatientsPerAide

/-- The distribution (insertion) order of nurse `i` for an input: acuity
rooms first, then fall-risk, then regular, in round-robin arrival order. -/
def nurseOrderOf (input : AssignmentInputData) (i : Nat) : List Int :=
  nurseDistOrder input.totalNurses (crOf input) i

/-- The number of total-care rooms nurse `i` receives:
`min(ceil(uncovered / totalNurses), remaining, own room count)`, walking the
nurses in index order. -/
def nurseQuotaOf (input : AssignmentInputData) (i : Nat) : Nat :=
  nurseQuota input.totalNurses (crOf input) (uncoveredOf input) i

def c5Input : AssignmentInputData :=
  { roomRangeStart := 1, roomRangeEnd := 4, excludedRooms := [], discharges := [],
    admits := [], highAcuityRooms := [3], highFallRiskRooms := [],
    totalNurses := 1, totalAides := 1, maxPatientsPerNurse := 8, maxPatientsPerAide := 2 }

def c5InputW : AssignmentInputData :=
  { roomRangeStart := 1, roomRangeEnd := 3, excludedRooms := [], discharges := [],
    admits := [], highAcuityRooms := [2], highFallRiskRooms := [],
    totalNurses := 1, totalAides := 0, maxPatientsPerNurse := 8, maxPatientsPerAide := 0 }

/-- One aide record of the `createAideAssignments` loop, described by the
closed form of its slice boundaries. -/
def aideSlice (covered : List Int) (base extra : Nat) (rsd : RoomStatusData) (j : Nat) :
    StaffAssignment where
  staffNumber := j + 1
  assignedRooms := (covered.drop (base * j + min j extra)).take
    (base + if j < extra then 1 else 0)
  patientCount := base + (if j < extra then 1 else 0)
  highAcuityRooms := []
  highFallRiskRooms := []
  totalCareRooms := []
  dischargeRooms := ((covered.drop (base * j + min j extra)).take
    (base + if j < extra then 1 else 0)).filter (fun room => rsd.discharges.contains room)
  admitRooms := ((covered.drop (base * j + min j extra)).take
    (base + if j < extra then 1 else 0)).filter (fun room => rsd.admits.contains room)

/-- The rooms with aide coverage: the first `aideCapacity` of the working set. -/
def coveredRoomsOf (input : AssignmentInputData) : List Int :=
  (workingSet input).take (input.totalAides * input.maxPatientsPerAide)

def aideBaseOf (input : AssignmentInputData) : Nat :=
  (coveredRoomsOf input).length / input.totalAides

def aideExtraOf (input : AssignmentInputData) : Nat :=
  (coveredRoomsOf input).length % input.totalAides

/-! ## Theorems -/

theorem getD_set_self {α : Type} [Inhabited α] (l : List α) (n : Nat) (a : α)
    (h : n < l.length) : (l.set n a).getD n default = a := by
  rw [List.getD_eq_getElem _ _ (by simpa using h)]
  exact List.getElem_set_self _

theorem getD_set_ne {α : Type} [Inhabited α] (l : List α) {n m : Nat} (a : α)
    (hnm : n ≠ m) : (l.set n a).getD m default = l.getD m default := by
  by_cases hm : m < l.length
  · rw [List.getD_eq_getElem _ _ (by simpa using hm), List.getD_eq_getElem _ _ hm]
    exact List.getElem_set_ne hnm _
  · rw [List.getD_eq_default _ _ (by simpa using Nat.le_of_not_lt hm),
      List.getD_eq_default _ _ (Nat.le_of_not_lt hm)]

theorem getD_map {α β : Type} [Inhabited α] [Inhabited β] (f : α → β) (l : List α)
    {i : Nat} (h : i < l.length) : (l.map f).getD i default = f (l.getD i default) := by
  rw [List.getD_eq_getElem _ _ (by simpa using h), List.getD_eq_getElem _ _ h]
  exact List.getElem_map f

theorem getD_range_map {α : Type} [Inhabited α] (f : Nat → α) {k i : Nat} (h : i < k) :
    (((List.range k).map f).getD i default) = f i := by
  rw [List.getD_eq_getElem _ _ (by simpa using h)]
  simp [List.getElem_map, List.getElem_range]

theorem getD_range_map' {α : Type} (f : Nat → α) (d : α) {k i : Nat} (h : i < k) :
    (((List.range k).map f).getD i d) = f i := by
  rw [List.getD_eq_getElem _ _ (by simpa using h)]
  simp [List.getElem_map, List.getElem_range]

theorem selectIdx_append (k : Nat) (L1 L2 : List Int) (i : Nat) :
    ∀ s, s < k → selectIdx k (L1 ++ L2) s i
      = selectIdx k L1 s i ++ selectIdx k L2 ((s + L1.length) % k) i := by
  induction L1 with
  | nil => intro s hs; simp [selectIdx, Nat.mod_eq_of_lt hs]
  | cons r rest ih =>
    intro s hs
    have hk : 0 < k := Nat.lt_of_le_of_lt (Nat.zero_le s) hs
    show (if s = i then [r] else []) ++ selectIdx k (rest ++ L2) ((s + 1) % k) i = _
    rw [ih _ (Nat.mod_lt _ hk), Nat.mod_add_mod]
    have harith : s + 1 + rest.length = s + (r :: rest).length := by
      simp [List.length_cons]; omega
    rw [harith]
    simp [selectIdx, List.append_assoc]

theorem rr_length (k : Nat) (t : RoomType) (rsd : RoomStatusData) :
    ∀ (rooms : List Int) (as : List StaffAssignment) (s : Nat),
      ((assignRoomsRoundRobin rooms k as t s rsd).1).length = as.length := by
  intro rooms
  induction rooms with
  | nil => intro as s; rfl
  | cons r rest ih =>
    intro as s
    simp only [assignRoomsRoundRobin]
    rw [ih]
    exact List.length_set ..

theorem rr_idx (k : Nat) (hk : 0 < k) (t : RoomType) (rsd : RoomStatusData) :
    ∀ (rooms : List Int) (as : List StaffAssignment) (s : Nat), s < k →
      (assignRoomsRoundRobin rooms k as t s rsd).2 = (s + rooms.length) % k := by
  intro rooms
  induction rooms with
  | nil => intro as s hs; simp [assignRoomsRoundRobin, Nat.mod_eq_of_lt hs]
  | cons r rest ih =>
    intro as s hs
    simp only [assignRoomsRoundRobin, List.length_cons]
    rw [ih _ _ (Nat.mod_lt _ hk), Nat.mod_add_mod]
    ring_nf

theorem rr_getD_assignedRooms (k : Nat) (hk : 0 < k) (t : RoomType) (rsd : RoomStatusData) :
    ∀ (rooms : List Int) (as : List StaffAssignment) (s i : Nat), as.length = k → s < k →
      i < k →
      (((assignRoomsRoundRobin rooms k as t s rsd).1).getD i default).assignedRooms
        = (as.getD i default).assignedRooms ++ selectIdx k rooms s i := by
  intro rooms
  induction rooms with
  | nil => intro as s i _ _ _; simp [assignRoomsRoundRobin, selectIdx]
  | cons r rest ih =>
    intro as s i hlen hs hi
    simp only [assignRoomsRoundRobin]
    rw [ih _ _ _ (by simpa using hlen) (Nat.mod_lt _ hk) hi]
    by_cases hsi : s = i
    · subst hsi
      rw [getD_set_self _ _ _ (hlen ▸ hs)]
      simp [pushRoomTo, selectIdx]
    · rw [getD_set_ne _ _ hsi]
      simp [selectIdx, hsi]

theorem rr_getD_highAcuityRooms (k : Nat) (hk : 0 < k) (t : RoomType) (rsd : RoomStatusData) :
    ∀ (rooms : List Int) (as : List StaffAssignment) (s i : Nat), as.length = k → s < k →
      i < k →
      (((assignRoomsRoundRobin rooms k as t s rsd).1).getD i default).highAcuityRooms
        = (as.getD i default).highAcuityRooms
          ++ (if t = RoomType.highAcuity then selectIdx k rooms s i else []) := by
  intro rooms
  induction rooms with
  | nil => intro as s i _ _ _; simp [assignRoomsRoundRobin, selectIdx]
  | cons r rest ih =>
    intro as s i hlen hs hi
    simp only [assignRoomsRoundRobin]
    rw [ih _ _ _ (by simpa using hlen) (Nat.mod_lt _ hk) hi]
    by_cases hsi : s = i
    · subst hsi
      rw [getD_set_self _ _ _ (hlen ▸ hs)]
      by_cases ht : t = RoomType.highAcuity <;> simp [pushRoomTo, selectIdx, ht]
    · rw [getD_set_ne _ _ hsi]
      by_cases ht : t = RoomType.highAcuity <;> simp [selectIdx, hsi, ht]

theorem rr_getD_highFallRiskRooms (k : Nat) (hk : 0 < k) (t : RoomType) (rsd : RoomStatusData) :
    ∀ (rooms : List Int) (as : List StaffAssignment) (s i : Nat), as.length = k → s < k →
      i < k →
      (((assignRoomsRoundRobin rooms k as t s rsd).1).getD i default).highFallRiskRooms
        = (as.getD i default).highFallRiskRooms
          ++ (if t = RoomType.highFallRisk then selectIdx k rooms s i else []) := by
  intro rooms
  induction rooms with
  | nil => intro as s i _ _ _; simp [assignRoomsRoundRobin, selectIdx]
  | cons r rest ih =>
    intro as s i hlen hs hi
    simp only [assignRoomsRoundRobin]
    rw [ih _ _ _ (by simpa using hlen) (Nat.mod_lt _ hk) hi]
    by_cases hsi : s = i
    · subst hsi
      rw [getD_set_self _ _ _ (hlen ▸ hs)]
      by_cases ht : t = RoomType.highFallRisk <;> simp [pushRoomTo, selectIdx, ht]
    · rw [getD_set_ne _ _ hsi]
      by_cases ht : t = RoomType.highFallRisk <;> simp [selectIdx, hsi, ht]

theorem rr_getD_dischargeRooms (k : Nat) (hk : 0 < k) (t : RoomType) (rsd : RoomStatusData) :
    ∀ (rooms : List Int) (as : List StaffAssignment) (s i : Nat), as.length = k → s < k →
      i < k →
      (((assignRoomsRoundRobin rooms k as t s rsd).1).getD i default).dischargeRooms
        = (as.getD i default).dischargeRooms
          ++ (selectIdx k rooms s i).filter (fun room => rsd.discharges.contains room) := by
  intro rooms
  induction rooms with
  | nil => intro as s i _ _ _; simp [assignRoomsRoundRobin, selectIdx]
  | cons r rest ih =>
    intro as s i hlen hs hi
    simp only [assignRoomsRoundRobin]
    rw [ih _ _ _ (by simpa using hlen) (Nat.mod_lt _ hk) hi]
    by_cases hsi : s = i
    · subst hsi
      rw [getD_set_self _ _ _ (hlen ▸ hs)]
      by_cases hc : r ∈ rsd.discharges
        <;> simp [pushRoomTo, selectIdx, hc, List.filter_append, List.filter_cons]
    · rw [getD_set_ne _ _ hsi]
      simp [selectIdx, hsi]

theorem rr_getD_admitRooms (k : Nat) (hk : 0 < k) (t : RoomType) (rsd : RoomStatusData) :
    ∀ (rooms : List Int) (as : List StaffAssignment) (s i : Nat), as.length = k → s < k →
      i < k →
      (((assignRoomsRoundRobin rooms k as t s rsd).1).getD i default).admitRooms
        = (as.getD i default).admitRooms
          ++ (selectIdx k rooms s i).filter (fun room => rsd.admits.contains room) := by
  intro rooms
  induction rooms with
  | nil => intro as s i _ _ _; simp [assignRoomsRoundRobin, selectIdx]
  | cons r rest ih =>
    intro as s i hlen hs hi
    simp only [assignRoomsRoundRobin]
    rw [ih _ _ _ (by simpa using hlen) (Nat.mod_lt _ hk) hi]
    by_cases hsi : s = i
    · subst hsi
      rw [getD_set_self _ _ _ (hlen ▸ hs)]
      by_cases hc : r ∈ rsd.admits
        <;> simp [pushRoomTo, selectIdx, hc, List.filter_append, List.filter_cons]
    · rw [getD_set_ne _ _ hsi]
      simp [selectIdx, hsi]

theorem rr_getD_untouched (k : Nat) (hk : 0 < k) (t : RoomType) (rsd : RoomStatusData) :
    ∀ (rooms : List Int) (as : List StaffAssignment) (s i : Nat), as.length = k → s < k →
      i < k →
      (((assignRoomsRoundRobin rooms k as t s rsd).1).getD i default).staffNumber
          = (as.getD i default).staffNumber
        ∧ (((assignRoomsRoundRobin rooms k as t s rsd).1).getD i default).patientCount
          = (as.getD i default).patientCount
        ∧ (((assignRoomsRoundRobin rooms k as t s rsd).1).getD i default).totalCareRooms
          = (as.getD i default).totalCareRooms := by
  intro rooms
  induction rooms with
  | nil => intro as s i _ _ _; exact ⟨rfl, rfl, rfl⟩
  | cons r rest ih =>
    intro as s i hlen hs hi
    simp only [assignRoomsRoundRobin]
    obtain ⟨h1, h2, h3⟩ := ih (as.set s (pushRoomTo (as.getD s default) r t rsd))
      ((s + 1) % k) i (by simpa using hlen) (Nat.mod_lt _ hk) hi
    rw [h1, h2, h3]
    by_cases hsi : s = i
    · subst hsi
      rw [getD_set_self _ _ _ (hlen ▸ hs)]
      exact ⟨rfl, rfl, rfl⟩
    · rw [getD_set_ne _ _ hsi]
      exact ⟨rfl, rfl, rfl⟩

theorem cntRR_front (k : Nat) (hk : 0 < k) {s : Nat} (hs : s < k) (m i : Nat) :
    cntRR k s (m + 1) i = (if s = i then 1 else 0) + cntRR k ((s + 1) % k) m i := by
  unfold cntRR
  rw [List.range_succ_eq_map, List.filter_cons]
  have hhead : ((s + 0) % k = i) = (s = i) := by
    rw [Nat.add_zero, Nat.mod_eq_of_lt hs]
  have htail : (List.map Nat.succ (List.range m)).filter (fun j => (s + j) % k = i)
      = (((List.range m).filter (fun j => ((s + 1) % k + j) % k = i)).map Nat.succ) := by
    rw [List.filter_map]
    congr 1
    apply List.filter_congr
    intro j _
    have hj : s + Nat.succ j = s + 1 + j := by omega
    simp only [Function.comp_apply, Nat.mod_add_mod, hj]
  simp only [hhead, htail]
  by_cases hsi : s = i <;> simp [hsi, Nat.add_comm]

theorem cntRR_succ (k s m i : Nat) :
    cntRR k s (m + 1) i = cntRR k s m i + (if (s + m) % k = i then 1 else 0) := by
  unfold cntRR
  rw [List.range_succ, List.filter_append]
  simp [List.filter_cons]
  split <;> simp

theorem selectIdx_length (k : Nat) (hk : 0 < k) (i : Nat) :
    ∀ (rooms : List Int) (s : Nat), s < k →
      (selectIdx k rooms s i).length = cntRR k s rooms.length i := by
  intro rooms
  induction rooms with
  | nil => intro s _; simp [selectIdx, cntRR]
  | cons r rest ih =>
    intro s hs
    rw [List.length_cons, cntRR_front k hk hs]
    simp only [selectIdx, List.length_append]
    rw [ih _ (Nat.mod_lt _ hk)]
    split <;> simp

theorem mod_lt_two_mul (x k : Nat) (hk : 0 < k) (h : x < 2 * k) :
    x % k = if x < k then x else x - k := by
  split
  · exact Nat.mod_eq_of_lt ‹_›
  · rw [Nat.mod_eq_sub_mod (by omega)]
    exact Nat.mod_eq_of_lt (by omega)

theorem modShift (k : Nat) (hk : 0 < k) {s i : Nat} (hs : s < k) (hi : i < k) (m : Nat) :
    ((s + m) % k = i) ↔ (m % k = (i + k - s) % k) := by
  have hb : m % k < k := Nat.mod_lt _ hk
  have hsm : (s + m) % k = (s + m % k) % k := by
    conv_lhs => rw [Nat.add_mod]
    rw [Nat.mod_eq_of_lt hs]
  rw [hsm, mod_lt_two_mul (s + m % k) k hk (by omega),
    mod_lt_two_mul (i + k - s) k hk (by omega)]
  split_ifs <;> omega

theorem div_mod_succ (m k : Nat) (hk : 0 < k) :
    ((m + 1) % k = 0 ∧ m % k + 1 = k ∧ (m + 1) / k = m / k + 1)
      ∨ ((m + 1) % k = m % k + 1 ∧ (m + 1) / k = m / k) := by
  have e1 := Nat.div_add_mod (m + 1) k
  have e2 := Nat.div_add_mod m k
  have hmk : m % k < k := Nat.mod_lt _ hk
  by_cases hdvd : k ∣ m + 1
  · left
    have hmod0 : (m + 1) % k = 0 := Nat.dvd_iff_mod_eq_zero.mp hdvd
    have hdiv : (m + 1) / k = m / k + 1 := by
      rw [Nat.succ_div]
      simp [hdvd]
    have e3 : k * ((m + 1) / k) = k * (m / k) + k := by
      rw [hdiv, Nat.mul_succ]
    exact ⟨hmod0, by omega, hdiv⟩
  · right
    have hdiv : (m + 1) / k = m / k := by
      rw [Nat.succ_div]
      simp [hdvd]
    have e3 : k * ((m + 1) / k) = k * (m / k) := by rw [hdiv]
    exact ⟨by omega, hdiv⟩

theorem cntRR_closed (k : Nat) (hk : 0 < k) {s i : Nat} (hs : s < k) (hi : i < k) :
    ∀ m, cntRR k s m i = m / k + (if (i + k - s) % k < m % k then 1 else 0) := by
  intro m
  induction m with
  | zero => simp [cntRR]
  | succ m ih =>
    rw [cntRR_succ, ih]
    have hmem : ((s + m) % k = i) ↔ (m % k = (i + k - s) % k) := modShift k hk hs hi m
    have ht : (i + k - s) % k < k := Nat.mod_lt _ hk
    rcases div_mod_succ m k hk with ⟨h0, h1, h2⟩ | ⟨h1, h2⟩ <;>
      · rw [h2]
        by_cases hcase : (s + m) % k = i
        · rw [if_pos hcase]
          have := hmem.mp hcase
          split_ifs <;> omega
        · rw [if_neg hcase]
          rw [hmem] at hcase
          split_ifs <;> omega

theorem cntRR_zero_start (k : Nat) (hk : 0 < k) {i : Nat} (hi : i < k) (m : Nat) :
    cntRR k 0 m i = m / k + (if i < m % k then 1 else 0) := by
  rw [cntRR_closed k hk hk hi m]
  have : (i + k - 0) % k = i := by
    rw [Nat.sub_zero, Nat.add_mod_right]
    exact Nat.mod_eq_of_lt hi
  rw [this]

theorem cntRR_balance (k : Nat) (hk : 0 < k) {s i j : Nat} (hs : s < k) (hi : i < k)
    (hj : j < k) (m : Nat) : cntRR k s m i ≤ cntRR k s m j + 1 := by
  rw [cntRR_closed k hk hs hi m, cntRR_closed k hk hs hj m]
  split_ifs <;> omega

theorem specTotalCareCounts_length (c : Nat) :
    ∀ (lens : List Nat) (rem : Nat), (specTotalCareCounts c lens rem).length = lens.length := by
  intro lens
  induction lens with
  | nil => intro rem; rfl
  | cons len rest ih => intro rem; simp [specTotalCareCounts, ih]

theorem rr_nil_assignments (k : Nat) (t : RoomType) (rsd : RoomStatusData) :
    ∀ (rooms : List Int) (s : Nat),
      (assignRoomsRoundRobin rooms k [] t s rsd).1 = [] := by
  intro rooms
  induction rooms with
  | nil => intro s; rfl
  | cons r rest ih => intro s; simpa [assignRoomsRoundRobin] using ih _

theorem totalCareFold_zero (c : Nat) (nas : List StaffAssignment) :
    totalCareFold c nas 0 = nas := by
  cases nas with
  | nil => rfl
  | cons sa rest => simp [totalCareFold]

theorem createNurseAssignments_nil (allRooms : List Int) (cr : CategorizedRooms)
    (p : Nat) (rsd : RoomStatusData) :
    createNurseAssignments allRooms 0 cr p rsd = [] := by
  unfold createNurseAssignments
  simp only [initialNurseAssignments, List.range_zero, List.map_nil]
  rw [rr_nil_assignments, rr_nil_assignments, rr_nil_assignments]
  unfold assignTotalCareRooms
  split
  · rfl
  · rw [show (totalCareFold (ceilDiv p (List.length ([] : List StaffAssignment))) [] p) = []
      from rfl]
    rfl

theorem zipWith_spec_zero (c : Nat) :
    ∀ (nas : List StaffAssignment), (∀ sa ∈ nas, sa.totalCareRooms = []) →
      List.zipWith
        (fun sa t =>
          { sa with totalCareRooms := sa.assignedRooms.drop (sa.assignedRooms.length - t) })
        nas (specTotalCareCounts c (nas.map (fun sa => sa.assignedRooms.length)) 0)
      = nas := by
  intro nas
  induction nas with
  | nil => intro _; rfl
  | cons sa rest ih =>
    intro h
    have h1 : sa.totalCareRooms = [] := h sa (List.mem_cons_self ..)
    have h2 := ih (fun x hx => h x (List.mem_cons_of_mem _ hx))
    simp only [List.map_cons, specTotalCareCounts, Nat.zero_min, Nat.min_zero,
      Nat.sub_zero, Nat.sub_self, List.zipWith_cons_cons]
    rw [List.drop_length, h2]
    obtain ⟨sn, ar, pc, ha, hf, tc, dr, am⟩ := sa
    simp only at h1 ⊢
    rw [h1]

theorem totalCareFold_eq_zipWith (c : Nat) :
    ∀ (nas : List StaffAssignment) (rem : Nat), (∀ sa ∈ nas, sa.totalCareRooms = []) →
      totalCareFold c nas rem
        = List.zipWith
            (fun sa t =>
              { sa with totalCareRooms := sa.assignedRooms.drop (sa.assignedRooms.length - t) })
            nas (specTotalCareCounts c (nas.map (fun sa => sa.assignedRooms.length)) rem) := by
  intro nas
  induction nas with
  | nil => intro rem _; rfl
  | cons sa rest ih =>
    intro rem h
    by_cases hrem : rem = 0
    · subst hrem
      rw [totalCareFold_zero, zipWith_spec_zero c _ h]
    · simp only [totalCareFold, if_neg hrem, List.map_cons, specTotalCareCounts,
        List.zipWith_cons_cons]
      congr 1
      exact ih _ (fun x hx => h x (List.mem_cons_of_mem _ hx))

theorem saExt {a b : StaffAssignment}
    (h1 : a.staffNumber = b.staffNumber) (h2 : a.assignedRooms = b.assignedRooms)
    (h3 : a.patientCount = b.patientCount) (h4 : a.highAcuityRooms = b.highAcuityRooms)
    (h5 : a.highFallRiskRooms = b.highFallRiskRooms)
    (h6 : a.totalCareRooms = b.totalCareRooms) (h7 : a.dischargeRooms = b.dischargeRooms)
    (h8 : a.admitRooms = b.admitRooms) : a = b := by
  cases a
  cases b
  simp only [StaffAssignment.mk.injEq]
  exact ⟨h1, h2, h3, h4, h5, h6, h7, h8⟩

theorem initial_getD (k : Nat) {i : Nat} (hi : i < k) :
    (initialNurseAssignments k).getD i default
      = { staffNumber := i + 1, assignedRooms := [], patientCount := 0,
          highAcuityRooms := [], highFallRiskRooms := [], totalCareRooms := [],
          dischargeRooms := [], admitRooms := [] } := by
  unfold initialNurseAssignments
  exact getD_range_map _ hi

theorem nurseDistOrder_decomp (k : Nat) (hk : 0 < k) (cr : CategorizedRooms) (i : Nat) :
    nurseDistOrder k cr i
      = selectIdx k cr.highAcuityRooms 0 i
        ++ (selectIdx k cr.highFallRiskRooms (cr.highAcuityRooms.length % k) i
          ++ selectIdx k cr.regularRooms
            ((cr.highAcuityRooms.length % k + cr.highFallRiskRooms.length) % k) i) := by
  unfold nurseDistOrder
  rw [selectIdx_append k _ _ i 0 hk, Nat.zero_add,
    selectIdx_append k _ _ i _ (Nat.mod_lt _ hk)]

theorem rr3_closed (k : Nat) (hk : 0 < k) (cr : CategorizedRooms) (rsd : RoomStatusData) :
    (assignRoomsRoundRobin cr.regularRooms k
        (assignRoomsRoundRobin cr.highFallRiskRooms k
            (assignRoomsRoundRobin cr.highAcuityRooms k (initialNurseAssignments k)
              RoomType.highAcuity 0 rsd).1
            RoomType.highFallRisk
            (assignRoomsRoundRobin cr.highAcuityRooms k (initialNurseAssignments k)
              RoomType.highAcuity 0 rsd).2 rsd).1
        RoomType.regular
        (assignRoomsRoundRobin cr.highFallRiskRooms k
            (assignRoomsRoundRobin cr.highAcuityRooms k (initialNurseAssignments k)
              RoomType.highAcuity 0 rsd).1
            RoomType.highFallRisk
            (assignRoomsRoundRobin cr.highAcuityRooms k (initialNurseAssignments k)
              RoomType.highAcuity 0 rsd).2 rsd).2 rsd).1
      = (List.range k).map (preNurseNoTC k cr rsd) := by
  set na0 := initialNurseAssignments k with hna0
  set r1 := assignRoomsRoundRobin cr.highAcuityRooms k na0 RoomType.highAcuity 0 rsd with hr1
  set r2 := assignRoomsRoundRobin cr.highFallRiskRooms k r1.1 RoomType.highFallRisk r1.2 rsd
    with hr2
  set r3 := assignRoomsRoundRobin cr.regularRooms k r2.1 RoomType.regular r2.2 rsd with hr3
  have hlen0 : na0.length = k := by simp [hna0, initialNurseAssignments]
  have hlen1 : r1.1.length = k := by rw [hr1, rr_length]; exact hlen0
  have hlen2 : r2.1.length = k := by rw [hr2, rr_length]; exact hlen1
  have hlen3 : r3.1.length = k := by rw [hr3, rr_length]; exact hlen2
  have hidx1 : r1.2 = cr.highAcuityRooms.length % k := by
    rw [hr1, rr_idx k hk _ rsd _ _ 0 hk, Nat.zero_add]
  have hidx1lt : r1.2 < k := by rw [hidx1]; exact Nat.mod_lt _ hk
  have hidx2 : r2.2 = (cr.highAcuityRooms.length % k + cr.highFallRiskRooms.length) % k := by
    rw [hr2, rr_idx k hk _ rsd _ _ _ hidx1lt, hidx1]
  have hidx2lt : r2.2 < k := by rw [hidx2]; exact Nat.mod_lt _ hk
  apply List.ext_getElem
  · rw [hlen3]; simp
  · intro i hi1 hi2
    have hik : i < k := by rw [← hlen3]; exact hi1
    have hstaff : (r3.1.getD i default).staffNumber = i + 1 := by
      rw [hr3, (rr_getD_untouched k hk _ rsd _ _ _ i hlen2 hidx2lt hik).1,
        hr2, (rr_getD_untouched k hk _ rsd _ _ _ i hlen1 hidx1lt hik).1,
        hr1, (rr_getD_untouched k hk _ rsd _ _ _ i hlen0 hk hik).1,
        hna0, initial_getD k hik]
    have hcount : (r3.1.getD i default).patientCount = 0 := by
      rw [hr3, (rr_getD_untouched k hk _ rsd _ _ _ i hlen2 hidx2lt hik).2.1,
        hr2, (rr_getD_untouched k hk _ rsd _ _ _ i hlen1 hidx1lt hik).2.1,
        hr1, (rr_getD_untouched k hk _ rsd _ _ _ i hlen0 hk hik).2.1,
        hna0, initial_getD k hik]
    have htc : (r3.1.getD i default).totalCareRooms = [] := by
      rw [hr3, (rr_getD_untouched k hk _ rsd _ _ _ i hlen2 hidx2lt hik).2.2,
        hr2, (rr_getD_untouched k hk _ rsd _ _ _ i hlen1 hidx1lt hik).2.2,
        hr1, (rr_getD_untouched k hk _ rsd _ _ _ i hlen0 hk hik).2.2,
        hna0, initial_getD k hik]
    have hassigned : (r3.1.getD i default).assignedRooms = nurseDistOrder k cr i := by
      rw [hr3, rr_getD_assignedRooms k hk _ rsd _ _ _ i hlen2 hidx2lt hik,
        hr2, rr_getD_assignedRooms k hk _ rsd _ _ _ i hlen1 hidx1lt hik,
        hr1, rr_getD_assignedRooms k hk _ rsd _ _ _ i hlen0 hk hik,
        hna0, initial_getD k hik, hidx2, hidx1, nurseDistOrder_decomp k hk cr i]
      simp [List.append_assoc]
    have hacuity : (r3.1.getD i default).highAcuityRooms
        = selectIdx k cr.highAcuityRooms 0 i := by
      rw [hr3, rr_getD_highAcuityRooms k hk _ rsd _ _ _ i hlen2 hidx2lt hik,
        hr2, rr_getD_highAcuityRooms k hk _ rsd _ _ _ i hlen1 hidx1lt hik,
        hr1, rr_getD_highAcuityRooms k hk _ rsd _ _ _ i hlen0 hk hik,
        hna0, initial_getD k hik]
      simp
    have hfall : (r3.1.getD i default).highFallRiskRooms
        = selectIdx k cr.highFallRiskRooms (cr.highAcuityRooms.length % k) i := by
      rw [hr3, rr_getD_highFallRiskRooms k hk _ rsd _ _ _ i hlen2 hidx2lt hik,
        hr2, rr_getD_highFallRiskRooms k hk _ rsd _ _ _ i hlen1 hidx1lt hik,
        hr1, rr_getD_highFallRiskRooms k hk _ rsd _ _ _ i hlen0 hk hik,
        hna0, initial_getD k hik, hidx1]
      simp
    have hdischarge : (r3.1.getD i default).dischargeRooms
        = (nurseDistOrder k cr i).filter (fun room => rsd.discharges.contains room) := by
      rw [hr3, rr_getD_dischargeRooms k hk _ rsd _ _ _ i hlen2 hidx2lt hik,
        hr2, rr_getD_dischargeRooms k hk _ rsd _ _ _ i hlen1 hidx1lt hik,
        hr1, rr_getD_dischargeRooms k hk _ rsd _ _ _ i hlen0 hk hik,
        hna0, initial_getD k hik, hidx2, hidx1, nurseDistOrder_decomp k hk cr i]
      simp [List.filter_append, List.append_assoc]
    have hadmit : (r3.1.getD i default).admitRooms
        = (nurseDistOrder k cr i).filter (fun room => rsd.admits.contains room) := by
      rw [hr3, rr_getD_admitRooms k hk _ rsd _ _ _ i hlen2 hidx2lt hik,
        hr2, rr_getD_admitRooms k hk _ rsd _ _ _ i hlen1 hidx1lt hik,
        hr1, rr_getD_admitRooms k hk _ rsd _ _ _ i hlen0 hk hik,
        hna0, initial_getD k hik, hidx2, hidx1, nurseDistOrder_decomp k hk cr i]
      simp [List.filter_append, List.append_assoc]
    have hrhs : ((List.range k).map (preNurseNoTC k cr rsd))[i] = preNurseNoTC k cr rsd i := by
      simp [List.getElem_map, List.getElem_range]
    rw [hrhs, ← List.getD_eq_getElem r3.1 default hi1]
    exact saExt hstaff hassigned hcount hacuity hfall htc hdischarge hadmit

theorem specTCC_zero_getD (c : Nat) :
    ∀ (lens : List Nat) (i : Nat), (specTotalCareCounts c lens 0).getD i 0 = 0 := by
  intro lens
  induction lens with
  | nil => intro i; simp [specTotalCareCounts]
  | cons len rest ih =>
    intro i
    simp only [specTotalCareCounts, Nat.zero_min, Nat.min_zero, Nat.sub_self, Nat.sub_zero]
    cases i with
    | zero => rfl
    | succ j => simpa using ih j

theorem nurseQuota_zero (k : Nat) (cr : CategorizedRooms) (i : Nat) :
    nurseQuota k cr 0 i = 0 := by
  unfold nurseQuota
  exact specTCC_zero_getD _ _ i

theorem preNurse_zero (k : Nat) (cr : CategorizedRooms) (rsd : RoomStatusData) (i : Nat) :
    preNurse k cr 0 rsd i = preNurseNoTC k cr rsd i := by
  apply saExt <;> simp only [preNurse, preNurseNoTC]
  rw [nurseQuota_zero, Nat.sub_zero, List.drop_length]

theorem createNurseAssignments_closed (allRooms : List Int) (k : Nat) (hk : 0 < k)
    (cr : CategorizedRooms) (p : Nat) (rsd : RoomStatusData) :
    createNurseAssignments allRooms k cr p rsd
      = (List.range k).map (fun i => finalizeAssignment (preNurse k cr p rsd i)) := by
  unfold createNurseAssignments
  simp only []
  rw [rr3_closed k hk cr rsd]
  by_cases hp : p = 0
  · subst hp
    unfold assignTotalCareRooms
    rw [if_pos rfl, List.map_map]
    apply List.map_congr_left
    intro i _
    simp only [Function.comp_apply]
    rw [preNurse_zero]
  · unfold assignTotalCareRooms
    rw [if_neg hp]
    rw [totalCareFold_eq_zipWith _ _ _ (by
      intro sa hsa
      obtain ⟨i, _, rfl⟩ := List.mem_map.mp hsa
      rfl)]
    have hlensmap : ((List.range k).map (preNurseNoTC k cr rsd)).map
        (fun sa => sa.assignedRooms.length) = nurseLens k cr := by
      rw [List.map_map]
      rfl
    rw [hlensmap]
    have hzip : List.zipWith
        (fun sa t =>
          { sa with totalCareRooms := sa.assignedRooms.drop (sa.assignedRooms.length - t) })
        ((List.range k).map (preNurseNoTC k cr rsd))
        (specTotalCareCounts (ceilDiv p ((List.range k).map (preNurseNoTC k cr rsd)).length)
          (nurseLens k cr) p)
        = (List.range k).map (preNurse k cr p rsd) := by
      have hklen : ((List.range k).map (preNurseNoTC k cr rsd)).length = k := by simp
      rw [hklen]
      have hslen : (specTotalCareCounts (ceilDiv p k) (nurseLens k cr) p).length = k := by
        rw [specTotalCareCounts_length]
        simp [nurseLens]
      apply List.ext_getElem
      · simp [hslen]
      · intro i hi1 hi2
        have hik : i < k := by
          simpa [hslen] using hi1
        rw [List.getElem_zipWith]
        simp only [List.getElem_map, List.getElem_range]
        rw [← List.getD_eq_getElem (specTotalCareCounts (ceilDiv p k) (nurseLens k cr) p)
          0 (by rw [hslen]; exact hik)]
        exact saExt rfl rfl rfl rfl rfl rfl rfl rfl
    rw [hzip, List.map_map]
    rfl

theorem sortRooms_perm (l : List Int) : (sortRooms l).Perm l :=
  List.perm_insertionSort _ l

theorem sortRooms_sorted (l : List Int) : (sortRooms l).Sorted (· ≤ ·) :=
  List.sorted_insertionSort _ l

theorem sortRooms_length (l : List Int) : (sortRooms l).length = l.length :=
  (sortRooms_perm l).length_eq

theorem sortRooms_mem {a : Int} {l : List Int} : a ∈ sortRooms l ↔ a ∈ l :=
  (sortRooms_perm l).mem_iff

theorem sortRooms_count (a : Int) (l : List Int) : (sortRooms l).count a = l.count a :=
  (sortRooms_perm l).count_eq a

theorem sortRooms_nodup {l : List Int} (h : l.Nodup) : (sortRooms l).Nodup :=
  ((sortRooms_perm l).nodup_iff).mpr h

theorem dedupFirst_subset : ∀ (l : List Int), dedupFirst l ⊆ l := by
  intro l
  induction l using dedupFirst.induct with
  | case1 => intro a ha; exact absurd ha (by simp [dedupFirst])
  | case2 x xs ih =>
    intro a ha
    rw [dedupFirst] at ha
    rcases List.mem_cons.mp ha with h | h
    · exact h ▸ List.mem_cons_self ..
    · exact List.mem_cons_of_mem _ (List.mem_of_mem_filter (ih h))

theorem dedupFirst_nodup : ∀ (l : List Int), (dedupFirst l).Nodup := by
  intro l
  induction l using dedupFirst.induct with
  | case1 => simp [dedupFirst]
  | case2 x xs ih =>
    rw [dedupFirst]
    refine List.Nodup.cons ?_ ih
    intro hx
    have := dedupFirst_subset _ hx
    simp at this

theorem generateRoomRange_nodup (a b : Int) : (generateRoomRange a b).Nodup := by
  unfold generateRoomRange
  refine List.Nodup.map ?_ (List.nodup_range _)
  intro i j h
  dsimp only [] at h
  omega

theorem generateRoomRange_sorted (a b : Int) : (generateRoomRange a b).Sorted (· ≤ ·) := by
  unfold generateRoomRange
  refine List.Pairwise.map _ ?_ (List.sorted_lt_range _)
  intro i j h
  omega

theorem workingSet_nodup (input : AssignmentInputData) : (workingSet input).Nodup := by
  unfold workingSet processRoomList
  simp only []
  split
  · exact sortRooms_nodup (dedupFirst_nodup _)
  · exact ((generateRoomRange_nodup _ _).filter _).filter _

theorem workingSet_sorted (input : AssignmentInputData) :
    (workingSet input).Sorted (· ≤ ·) := by
  unfold workingSet processRoomList
  simp only []
  split
  · exact sortRooms_sorted _
  · exact ((generateRoomRange_sorted _ _).filter _).filter _

theorem calc_ok_elim (input : AssignmentInputData) (res : AssignmentResults)
    (h : calculateStaffAssignments input = .ok res) :
    (workingSet input).length ≤ input.totalNurses * input.maxPatientsPerNurse
    ∧ res.totalPatientCount = (workingSet input).length
    ∧ res.aideCoverageData = calculateAideCoverageData (workingSet input).length
        input.totalAides input.maxPatientsPerAide
    ∧ res.nurseAssignments = createNurseAssignments (workingSet input) input.totalNurses
        (categorizeRoomsByPriority (workingSet input) input.highAcuityRooms
          input.highFallRiskRooms)
        ((workingSet input).length - input.totalAides * input.maxPatientsPerAide)
        (calcRoomStatusData input)
    ∧ res.aideAssignments = createAideAssignments (workingSet input) input.totalAides
        (input.totalAides * input.maxPatientsPerAide) (calcRoomStatusData input) := by
  unfold calculateStaffAssignments at h
  simp only [] at h
  split at h
  · rename_i hval
    have hcap : (workingSet input).length ≤ input.totalNurses * input.maxPatientsPerNurse := by
      unfold validateNursingCapacity at hval
      exact of_decide_eq_true hval
    obtain rfl := Except.ok.inj h
    refine ⟨hcap, rfl, rfl, rfl, rfl⟩
  · exact absurd h (by simp)

theorem selectIdx_sum_multiset (k : Nat) (hk : 0 < k) :
    ∀ (L : List Int) (s : Nat), s < k →
      (∑ i ∈ Finset.range k, ((selectIdx k L s i : List Int) : Multiset Int))
        = (L : Multiset Int) := by
  intro L
  induction L with
  | nil => intro s hs; simp [selectIdx]
  | cons r rest ih =>
    intro s hs
    have hstep : ∀ i, ((selectIdx k (r :: rest) s i : List Int) : Multiset Int)
        = (if s = i then ({r} : Multiset Int) else 0)
          + ((selectIdx k rest ((s + 1) % k) i : List Int) : Multiset Int) := by
      intro i
      show ((((if s = i then [r] else []) ++ selectIdx k rest ((s + 1) % k) i :
        List Int)) : Multiset Int) = _
      split <;> simp
    rw [Finset.sum_congr rfl (fun i _ => hstep i), Finset.sum_add_distrib,
      ih _ (Nat.mod_lt _ hk),
      Finset.sum_ite_eq (Finset.range k) s (fun _ => ({r} : Multiset Int)),
      if_pos (Finset.mem_range.mpr hs)]
    rw [Multiset.singleton_add, Multiset.cons_coe]

theorem selectIdx_sum_count (k : Nat) (hk : 0 < k) (L : List Int) {s : Nat} (hs : s < k)
    (x : Int) :
    (∑ i ∈ Finset.range k, (selectIdx k L s i).count x) = L.count x := by
  have h := congrArg (Multiset.count x) (selectIdx_sum_multiset k hk L s hs)
  rwa [Multiset.count_sum', Finset.sum_congr rfl
    (fun i _ => Multiset.coe_count x (selectIdx k L s i)), Multiset.coe_count] at h

theorem selectIdx_sum_length (k : Nat) (hk : 0 < k) :
    ∀ (L : List Int) (s : Nat), s < k →
      (∑ i ∈ Finset.range k, (selectIdx k L s i).length) = L.length := by
  intro L
  induction L with
  | nil => intro s hs; simp [selectIdx]
  | cons r rest ih =>
    intro s hs
    have hstep : ∀ i, (selectIdx k (r :: rest) s i).length
        = (if s = i then 1 else 0) + (selectIdx k rest ((s + 1) % k) i).length := by
      intro i
      show ((if s = i then [r] else []) ++ selectIdx k rest ((s + 1) % k) i).length = _
      split <;> simp [Nat.add_comm]
    rw [Finset.sum_congr rfl (fun i _ => hstep i), Finset.sum_add_distrib,
      ih _ (Nat.mod_lt _ hk),
      Finset.sum_ite_eq (Finset.range k) s (fun _ => 1),
      if_pos (Finset.mem_range.mpr hs)]
    simp [Nat.add_comm]

theorem categorize_append_perm (allRooms hA hF : List Int) (hnA : allRooms.Nodup)
    (hndA : hA.Nodup) (hndF : hF.Nodup) :
    ((categorizeRoomsByPriority allRooms hA hF).highAcuityRooms
      ++ ((categorizeRoomsByPriority allRooms hA hF).highFallRiskRooms
        ++ (categorizeRoomsByPriority allRooms hA hF).regularRooms)).Perm allRooms := by
  unfold categorizeRoomsByPriority
  simp only []
  set A' := hA.filter (fun room => allRooms.contains room) with hA'
  set F' := hF.filter
    (fun room => allRooms.contains room && !(A'.contains room)) with hF'
  set R' := allRooms.filter
    (fun room => !(A'.contains room) && !(F'.contains room)) with hR'
  have hmemA' : ∀ x, x ∈ A' ↔ (x ∈ hA ∧ x ∈ allRooms) := by
    intro x
    rw [hA', List.mem_filter]
    simp [List.elem_iff]
  have hmemF' : ∀ x, x ∈ F' ↔ (x ∈ hF ∧ x ∈ allRooms ∧ x ∉ A') := by
    intro x
    rw [hF', List.mem_filter]
    simp [List.elem_iff]
  have hmemR' : ∀ x, x ∈ R' ↔ (x ∈ allRooms ∧ x ∉ A' ∧ x ∉ F') := by
    intro x
    rw [hR', List.mem_filter]
    simp [List.elem_iff]
  have hnodup : (A' ++ (F' ++ R')).Nodup := by
    refine List.Nodup.append (hndA.filter _) (List.Nodup.append (hndF.filter _)
      (hnA.filter _) ?_) ?_
    · intro x hxF hxR
      exact (((hmemR' x).mp hxR).2.2) hxF
    · intro x hxA hx
      rcases List.mem_append.mp hx with hxF | hxR
      · exact ((hmemF' x).mp hxF).2.2 hxA
      · exact ((hmemR' x).mp hxR).2.1 hxA
  refine (List.perm_ext_iff_of_nodup hnodup hnA).mpr ?_
  intro x
  constructor
  · intro hx
    rcases List.mem_append.mp hx with hxA | hx2
    · exact ((hmemA' x).mp hxA).2
    · rcases List.mem_append.mp hx2 with hxF | hxR
      · exact ((hmemF' x).mp hxF).2.1
      · exact ((hmemR' x).mp hxR).1
  · intro hx
    rw [List.mem_append, List.mem_append, hmemA', hmemF', hmemR']
    by_cases hinA : x ∈ hA
    · exact Or.inl ⟨hinA, hx⟩
    · have hxA : x ∉ A' := fun hxa => hinA ((hmemA' x).mp hxa).1
      by_cases hinF : x ∈ hF
      · exact Or.inr (Or.inl ⟨hinF, hx, hxA⟩)
      · have hxF : x ∉ F' := fun hxf => hinF ((hmemF' x).mp hxf).1
        exact Or.inr (Or.inr ⟨hx, hxA, hxF⟩)

theorem calc_eq_error (input : AssignmentInputData)
    (h : input.totalNurses * input.maxPatientsPerNurse < (workingSet input).length) :
    calculateStaffAssignments input
      = .error (CalcError.insufficientCapacity (workingSet input).length
        (input.totalNurses * input.maxPatientsPerNurse)) := by
  unfold calculateStaffAssignments
  simp only []
  rw [if_neg]
  · rfl
  · unfold validateNursingCapacity
    simp only [decide_eq_true_eq]
    intro hle
    have : (processRoomList input.roomRangeStart input.roomRangeEnd input.excludedRooms
        input.discharges input.admits).1.length = (workingSet input).length := rfl
    omega

theorem calc_isOk (input : AssignmentInputData)
    (h : (workingSet input).length ≤ input.totalNurses * input.maxPatientsPerNurse) :
    calculateStaffAssignments input = .ok (calcResult input) := by
  have hok : ∃ res, calculateStaffAssignments input = .ok res := by
    unfold calculateStaffAssignments
    simp only []
    rw [if_pos (by unfold validateNursingCapacity; exact decide_eq_true h)]
    exact ⟨_, rfl⟩
  obtain ⟨res, hres⟩ := hok
  rw [hres]
  unfold calcResult
  rw [hres]
  rfl

theorem contains_iff (l : List Int) (x : Int) : l.contains x = true ↔ x ∈ l := by
  simp [List.contains, List.elem_iff]

theorem contains_false_iff (l : List Int) (x : Int) : l.contains x = false ↔ x ∉ l := by
  rw [← contains_iff]
  cases h : l.contains x <;> simp

theorem mem_categorize_highAcuity (allRooms hA hF : List Int) (x : Int) :
    x ∈ (categorizeRoomsByPriority allRooms hA hF).highAcuityRooms
      ↔ (x ∈ hA ∧ x ∈ allRooms) := by
  simp only [categorizeRoomsByPriority]
  simp [List.mem_filter, contains_iff, contains_false_iff]

theorem mem_categorize_highFallRisk (allRooms hA hF : List Int) (x : Int) :
    x ∈ (categorizeRoomsByPriority allRooms hA hF).highFallRiskRooms
      ↔ (x ∈ hF ∧ x ∈ allRooms ∧ x ∉ hA) := by
  simp only [categorizeRoomsByPriority]
  simp [List.mem_filter, contains_iff, contains_false_iff]
  tauto

theorem mem_categorize_regular (allRooms hA hF : List Int) (x : Int) :
    x ∈ (categorizeRoomsByPriority allRooms hA hF).regularRooms
      ↔ (x ∈ allRooms ∧ x ∉ hA ∧ x ∉ hF) := by
  simp only [categorizeRoomsByPriority]
  simp [List.mem_filter, contains_iff, contains_false_iff]
  tauto

theorem workingSet_empty (input : AssignmentInputData)
    (hrange : input.roomRangeEnd < input.roomRangeStart) (hadmits : input.admits = []) :
    workingSet input = [] := by
  unfold workingSet processRoomList
  simp only []
  have h0 : (input.roomRangeEnd - input.roomRangeStart + 1).toNat = 0 := by omega
  rw [hadmits]
  simp [generateRoomRange, h0, removeExcludedRooms]

/-- C1: `calculateStaffAssignments` fails, with an insufficient-capacity error
carrying the patient count and the maximum capacity
`totalNurses × maxPatientsPerNurse`, exactly when the working-set patient
count exceeds that capacity; on failure no partial result is produced (the
result is the bare error) and on success no later step fails (a full result
record is returned). -/
theorem claim_C1 (input : AssignmentInputData) :
    ((∃ e, calculateStaffAssignments input = .error e)
      ↔ input.totalNurses * input.maxPatientsPerNurse < (workingSet input).length)
    ∧ ∀ e, calculateStaffAssignments input = .error e →
        e = CalcError.insufficientCapacity (workingSet input).length
          (input.totalNurses * input.maxPatientsPerNurse) := by
  by_cases hv : (workingSet input).length ≤ input.totalNurses * input.maxPatientsPerNurse
  · have hok := calc_isOk input hv
    constructor
    · constructor
      · rintro ⟨e, he⟩
        rw [hok] at he
        exact absurd he (by simp)
      · intro hlt
        omega
    · intro e he
      rw [hok] at he
      exact absurd he (by simp)
  · have herr := calc_eq_error input (by omega)
    constructor
    · exact ⟨fun _ => by omega, fun _ => ⟨_, herr⟩⟩
    · intro e he
      rw [herr] at he
      exact (Except.error.inj he).symm

/-- C1 witness: at a concrete overloaded input (3 patients, capacity 2), the
error carries exactly the patient count and the capacity. -/
theorem claim_C1_witness :
    CalcError.insufficientCapacity 3 2
      = CalcError.insufficientCapacity (workingSet c1InputW).length
        (c1InputW.totalNurses * c1InputW.maxPatientsPerNurse) :=
  (claim_C1 c1InputW).2 (CalcError.insufficientCapacity 3 2) (by decide)

/-- C4 counterexample: with `roomRangeStart = 5 > 3 = roomRangeEnd`,
`calculateStaffAssignments` does NOT fail with an invalid-range error — it
succeeds, returning a result with `totalPatientCount = 0`. -/
theorem claim_C4_counterexample :
    c4Input.roomRangeEnd < c4Input.roomRangeStart
    ∧ (calculateStaffAssignments c4Input).isOk = true
    ∧ (calculateStaffAssignments c4Input).map (fun r => r.totalPatientCount)
      = Except.ok 0 := by decide

/-- C4 amended: for `roomRangeStart > roomRangeEnd` (and no admits), the
calculation proceeds with the empty room list and succeeds with
`totalPatientCount = 0`; the invalid-range error exists only in
`roomParser.generateRoomRange` (used for parsing range tokens), which does
fail on such a range. -/
theorem claim_C4_amended (input : AssignmentInputData)
    (hrange : input.roomRangeEnd < input.roomRangeStart) (hadmits : input.admits = []) :
    (calculateStaffAssignments input).map (fun r => r.totalPatientCount) = Except.ok 0
    ∧ (RoomParser.generateRoomRange input.roomRangeStart input.roomRangeEnd).isOk
      = false := by
  have hws := workingSet_empty input hrange hadmits
  have h0 : (workingSet input).length = 0 := by rw [hws]; rfl
  have hok := calc_isOk input (by omega)
  constructor
  · rw [hok]
    have htot := (calc_ok_elim input _ hok).2.1
    simp only [Except.map]
    rw [htot, h0]
  · unfold RoomParser.generateRoomRange
    rw [if_pos (by omega)]
    rfl

/-- C4 witness: the amended statement at a concrete reversed range. -/
theorem claim_C4_witness :
    (calculateStaffAssignments c4InputW).map (fun r => r.totalPatientCount) = Except.ok 0
    ∧ (RoomParser.generateRoomRange c4InputW.roomRangeStart c4InputW.roomRangeEnd).isOk
      = false :=
  claim_C4_amended c4InputW (by decide) rfl

/-- C7 counterexample: duplicates in the raw acuity list are NOT
deduplicated — on working set `[103]` with raw acuity list `[103, 103]` the
returned high-acuity list is `[103, 103]`, which is not duplicate-free. -/
theorem claim_C7_counterexample :
    (categorizeRoomsByPriority [103] [103, 103] []).highAcuityRooms = [103, 103]
    ∧ ¬ (categorizeRoomsByPriority [103] [103, 103] []).highAcuityRooms.Nodup := by
  decide

/-- C7 amended: for a duplicate-free working set and duplicate-free raw
lists, `categorizeRoomsByPriority` returns three pairwise-disjoint
duplicate-free lists whose union is the working set; a room in both raw
lists is classified acuity only, and rooms outside the working set are
dropped from all three lists. -/
theorem claim_C7_amended (allRooms hA hF : List Int) (hnA : allRooms.Nodup)
    (hndA : hA.Nodup) (hndF : hF.Nodup) :
    ((categorizeRoomsByPriority allRooms hA hF).highAcuityRooms.Nodup
      ∧ (categorizeRoomsByPriority allRooms hA hF).highFallRiskRooms.Nodup
      ∧ (categorizeRoomsByPriority allRooms hA hF).regularRooms.Nodup)
    ∧ ((categorizeRoomsByPriority allRooms hA hF).highAcuityRooms.Disjoint
        (categorizeRoomsByPriority allRooms hA hF).highFallRiskRooms
      ∧ (categorizeRoomsByPriority allRooms hA hF).highAcuityRooms.Disjoint
        (categorizeRoomsByPriority allRooms hA hF).regularRooms
      ∧ (categorizeRoomsByPriority allRooms hA hF).highFallRiskRooms.Disjoint
        (categorizeRoomsByPriority allRooms hA hF).regularRooms)
    ∧ (∀ x, (x ∈ (categorizeRoomsByPriority allRooms hA hF).highAcuityRooms
          ∨ x ∈ (categorizeRoomsByPriority allRooms hA hF).highFallRiskRooms
          ∨ x ∈ (categorizeRoomsByPriority allRooms hA hF).regularRooms)
        ↔ x ∈ allRooms)
    ∧ (∀ x, x ∈ hA → x ∈ hF → x ∈ allRooms →
        x ∈ (categorizeRoomsByPriority allRooms hA hF).highAcuityRooms
          ∧ x ∉ (categorizeRoomsByPriority allRooms hA hF).highFallRiskRooms)
    ∧ (∀ x, x ∉ allRooms →
        x ∉ (categorizeRoomsByPriority allRooms hA hF).highAcuityRooms
          ∧ x ∉ (categorizeRoomsByPriority allRooms hA hF).highFallRiskRooms
          ∧ x ∉ (categorizeRoomsByPriority allRooms hA hF).regularRooms) := by
  refine ⟨⟨hndA.filter _, hndF.filter _, hnA.filter _⟩, ⟨?_, ?_, ?_⟩, ?_, ?_, ?_⟩
  · intro x hx hy
    exact ((mem_categorize_highFallRisk allRooms hA hF x).mp hy).2.2
      ((mem_categorize_highAcuity allRooms hA hF x).mp hx).1
  · intro x hx hy
    exact ((mem_categorize_regular allRooms hA hF x).mp hy).2.1
      ((mem_categorize_highAcuity allRooms hA hF x).mp hx).1
  · intro x hx hy
    exact ((mem_categorize_regular allRooms hA hF x).mp hy).2.2
      ((mem_categorize_highFallRisk allRooms hA hF x).mp hx).1
  · intro x
    rw [mem_categorize_highAcuity, mem_categorize_highFallRisk, mem_categorize_regular]
    constructor
    · rintro (h | h | h) <;> tauto
    · intro hx
      by_cases hinA : x ∈ hA
      · exact Or.inl ⟨hinA, hx⟩
      · by_cases hinF : x ∈ hF
        · exact Or.inr (Or.inl ⟨hinF, hx, hinA⟩)
        · exact Or.inr (Or.inr ⟨hx, hinA, hinF⟩)
  · intro x hxA hxF hxAll
    rw [mem_categorize_highAcuity, mem_categorize_highFallRisk]
    exact ⟨⟨hxA, hxAll⟩, fun h => h.2.2 hxA⟩
  · intro x hx
    rw [mem_categorize_highAcuity, mem_categorize_highFallRisk, mem_categorize_regular]
    exact ⟨fun h => hx h.2, fun h => hx h.2.1, fun h => hx h.1⟩

/-- C7 witness: the duplicate-freeness and disjointness conclusions at a
concrete categorization. -/
theorem claim_C7_witness :
    ((categorizeRoomsByPriority [1, 2, 3] [2, 9] [2, 3]).highAcuityRooms.Nodup
      ∧ (categorizeRoomsByPriority [1, 2, 3] [2, 9] [2, 3]).highFallRiskRooms.Nodup
      ∧ (categorizeRoomsByPriority [1, 2, 3] [2, 9] [2, 3]).regularRooms.Nodup) :=
  (claim_C7_amended [1, 2, 3] [2, 9] [2, 3] (by decide) (by decide) (by decide)).1

/-- C3: for every input accepted by validation, the round-robin distribution
leaves any two nurses' counts of each special-care category differing by at
most 1: the `highAcuityRooms` lengths of any two nurses differ by at most 1,
and likewise the `highFallRiskRooms` lengths. -/
theorem claim_C3 (input : AssignmentInputData) (res : AssignmentResults)
    (hok : calculateStaffAssignments input = .ok res) (i j : Nat)
    (hi : i < input.totalNurses) (hj : j < input.totalNurses) :
    (res.nurseAssignments.getD i default).highAcuityRooms.length
      ≤ (res.nurseAssignments.getD j default).highAcuityRooms.length + 1
    ∧ (res.nurseAssignments.getD i default).highFallRiskRooms.length
      ≤ (res.nurseAssignments.getD j default).highFallRiskRooms.length + 1 := by
  have hk : 0 < input.totalNurses := Nat.lt_of_le_of_lt (Nat.zero_le i) hi
  obtain ⟨hcap, htot, hacd, hnur, haid⟩ := calc_ok_elim input res hok
  rw [hnur, createNurseAssignments_closed _ _ hk _ _ _, getD_range_map _ hi,
    getD_range_map _ hj]
  simp only [finalizeAssignment, preNurse]
  constructor
  · rw [sortRooms_length, sortRooms_length,
      selectIdx_length _ hk i _ 0 hk, selectIdx_length _ hk j _ 0 hk]
    exact cntRR_balance _ hk hk hi hj _
  · rw [sortRooms_length, sortRooms_length,
      selectIdx_length _ hk i _ _ (Nat.mod_lt _ hk),
      selectIdx_length _ hk j _ _ (Nat.mod_lt _ hk)]
    exact cntRR_balance _ hk (Nat.mod_lt _ hk) hi hj _

/-- C3 witness: the balance conclusion at a concrete 2-nurse input with 3
acuity rooms and 1 fall-risk room. -/
theorem claim_C3_witness :
    ((calcResult c3InputW).nurseAssignments.getD 0 default).highAcuityRooms.length
      ≤ ((calcResult c3InputW).nurseAssignments.getD 1 default).highAcuityRooms.length + 1
    ∧ ((calcResult c3InputW).nurseAssignments.getD 0 default).highFallRiskRooms.length
      ≤ ((calcResult c3InputW).nurseAssignments.getD 1 default).highFallRiskRooms.length
        + 1 :=
  claim_C3 c3InputW (calcResult c3InputW) (by decide) 0 1 (by decide) (by decide)

theorem range_map_sum (f : Nat → Nat) (n : Nat) :
    ((List.range n).map f).sum = ∑ i ∈ Finset.range n, f i := by
  induction n with
  | zero => simp
  | succ n ih =>
    rw [List.range_succ, List.map_append, List.sum_append, Finset.sum_range_succ, ih]
    simp

/-- C2 counterexample: validation passes (2 patients ≤ 10) but the duplicated
raw acuity entry `1` is pushed twice, so the patient counts sum to 3 while
`totalPatientCount = 2` — the nurse assignments do not partition the working
set for every valid input. -/
theorem claim_C2_counterexample :
    (calculateStaffAssignments c2Input).map
        (fun r => (((r.nurseAssignments.map (fun na => na.patientCount)).sum),
          r.totalPatientCount))
      = Except.ok (3, 2)
    ∧ (3 : Nat) ≠ 2 := by decide

/-- C2 amended: for every valid input whose raw acuity and fall-risk lists
are duplicate-free, the nurse assignments partition the working room set:
the patient counts sum to `totalPatientCount`, and every room of the working
set occurs exactly once across all nurses' `assignedRooms`. -/
theorem claim_C2_amended (input : AssignmentInputData) (res : AssignmentResults)
    (hok : calculateStaffAssignments input = .ok res)
    (hndA : input.highAcuityRooms.Nodup) (hndF : input.highFallRiskRooms.Nodup) :
    ((res.nurseAssignments.map (fun na => na.patientCount)).sum = res.totalPatientCount)
    ∧ ∀ room ∈ workingSet input,
        (res.nurseAssignments.map (fun na => na.assignedRooms.count room)).sum = 1 := by
  obtain ⟨hcap, htot, hacd, hnur, haid⟩ := calc_ok_elim input res hok
  rcases Nat.eq_zero_or_pos input.totalNurses with hk0 | hk
  · rw [hnur, hk0, createNurseAssignments_nil]
    have hlen0 : (workingSet input).length = 0 := by rw [hk0] at hcap; omega
    have hws : workingSet input = [] := List.length_eq_zero.mp hlen0
    constructor
    · simp [htot, hlen0]
    · intro room hroom
      rw [hws] at hroom
      exact absurd hroom (List.not_mem_nil room)
  · have hperm := categorize_append_perm (workingSet input) input.highAcuityRooms
      input.highFallRiskRooms (workingSet_nodup input) hndA hndF
    rw [hnur, createNurseAssignments_closed _ _ hk _ _ _]
    constructor
    · rw [List.map_map, range_map_sum, Finset.sum_congr rfl (fun i _ => by
        show ((fun na => na.patientCount)
            ∘ (fun i => finalizeAssignment (preNurse input.totalNurses
              (categorizeRoomsByPriority (workingSet input) input.highAcuityRooms
                input.highFallRiskRooms)
              ((workingSet input).length - input.totalAides * input.maxPatientsPerAide)
              (calcRoomStatusData input) i))) i
          = (selectIdx input.totalNurses
              ((categorizeRoomsByPriority (workingSet input) input.highAcuityRooms
                  input.highFallRiskRooms).highAcuityRooms
                ++ ((categorizeRoomsByPriority (workingSet input) input.highAcuityRooms
                  input.highFallRiskRooms).highFallRiskRooms
                  ++ (categorizeRoomsByPriority (workingSet input) input.highAcuityRooms
                    input.highFallRiskRooms).regularRooms)) 0 i).length
        simp only [Function.comp_apply, finalizeAssignment, preNurse]
        exact sortRooms_length _),
      selectIdx_sum_length _ hk _ 0 hk, htot, hperm.length_eq]
    · intro room hroom
      rw [List.map_map, range_map_sum, Finset.sum_congr rfl (fun i _ => by
        show ((fun na => na.assignedRooms.count room)
            ∘ (fun i => finalizeAssignment (preNurse input.totalNurses
              (categorizeRoomsByPriority (workingSet input) input.highAcuityRooms
                input.highFallRiskRooms)
              ((workingSet input).length - input.totalAides * input.maxPatientsPerAide)
              (calcRoomStatusData input) i))) i
          = (selectIdx input.totalNurses
              ((categorizeRoomsByPriority (workingSet input) input.highAcuityRooms
                  input.highFallRiskRooms).highAcuityRooms
                ++ ((categorizeRoomsByPriority (workingSet input) input.highAcuityRooms
                  input.highFallRiskRooms).highFallRiskRooms
                  ++ (categorizeRoomsByPriority (workingSet input) input.highAcuityRooms
                    input.highFallRiskRooms).regularRooms)) 0 i).count room
        simp only [Function.comp_apply, finalizeAssignment, preNurse]
        exact sortRooms_count room _),
      selectIdx_sum_count _ hk _ hk room, hperm.count_eq room]
      exact List.count_eq_one_of_mem (workingSet_nodup input) hroom

/-- C2 witness: the patient counts of the concrete 2-nurse, 5-room input sum
to its total patient count. -/
theorem claim_C2_witness :
    ((calcResult c3InputW).nurseAssignments.map (fun na => na.patientCount)).sum
      = (calcResult c3InputW).totalPatientCount :=
  (claim_C2_amended c3InputW (calcResult c3InputW) (by decide) (by decide) (by decide)).1

/-- C10: for every input accepted by validation with duplicate-free acuity
and fall-risk lists and at least one nurse, no nurse's `patientCount`
exceeds `maxPatientsPerNurse`: the round-robin hands each nurse at most
`ceil(n / totalNurses)` rooms, bounded by the aggregate capacity check. -/
theorem claim_C10 (input : AssignmentInputData) (res : AssignmentResults)
    (hok : calculateStaffAssignments input = .ok res)
    (hndA : input.highAcuityRooms.Nodup) (hndF : input.highFallRiskRooms.Nodup)
    (hk1 : 1 ≤ input.totalNurses) (i : Nat) (hi : i < input.totalNurses) :
    (res.nurseAssignments.getD i default).patientCount ≤ input.maxPatientsPerNurse := by
  have hk : 0 < input.totalNurses := hk1
  obtain ⟨hcap, htot, hacd, hnur, haid⟩ := calc_ok_elim input res hok
  have hperm := categorize_append_perm (workingSet input) input.highAcuityRooms
    input.highFallRiskRooms (workingSet_nodup input) hndA hndF
  rw [hnur, createNurseAssignments_closed _ _ hk _ _ _, getD_range_map _ hi]
  simp only [finalizeAssignment, preNurse]
  rw [sortRooms_length]
  unfold nurseDistOrder
  rw [selectIdx_length _ hk i _ 0 hk, cntRR_zero_start _ hk hi, hperm.length_eq]
  set n := (workingSet input).length with hn
  set k := input.totalNurses with hkdef
  have hdm := Nat.div_add_mod n k
  have hmlt : n % k < k := Nat.mod_lt _ hk
  by_cases hcase : i < n % k
  · rw [if_pos hcase]
    by_contra hcon
    have hle : input.maxPatientsPerNurse ≤ n / k := by omega
    have := Nat.mul_le_mul_left k hle
    omega
  · rw [if_neg hcase]
    by_contra hcon
    have hle : input.maxPatientsPerNurse + 1 ≤ n / k := by omega
    have := Nat.mul_le_mul_left k hle
    rw [Nat.mul_succ] at this
    omega

/-- C10 witness: the bound at a concrete 2-nurse input. -/
theorem claim_C10_witness :
    ((calcResult c3InputW).nurseAssignments.getD 0 default).patientCount
      ≤ c3InputW.maxPatientsPerNurse :=
  claim_C10 c3InputW (calcResult c3InputW) (by decide) (by decide) (by decide)
    (by decide) 0 (by decide)

theorem specTCC_getD_le (c : Nat) :
    ∀ (lens : List Nat) (rem i : Nat),
      (specTotalCareCounts c lens rem).getD i 0 ≤ lens.getD i 0 := by
  intro lens
  induction lens with
  | nil => intro rem i; simp [specTotalCareCounts]
  | cons len rest ih =>
    intro rem i
    cases i with
    | zero =>
      simp only [specTotalCareCounts, List.getD_cons_zero]
      omega
    | succ j =>
      simp only [specTotalCareCounts, List.getD_cons_succ]
      exact ih _ _

theorem sum_getD : ∀ (l : List Nat),
    ((List.range l.length).map (fun i => l.getD i 0)).sum = l.sum := by
  intro l
  induction l with
  | nil => rfl
  | cons x xs ih =>
    rw [List.length_cons, List.range_succ_eq_map, List.map_cons, List.map_map,
      List.sum_cons, List.getD_cons_zero]
    rw [show ((fun i => (x :: xs).getD i 0) ∘ Nat.succ) = (fun i => xs.getD i 0) from ?_]
    · rw [ih, List.sum_cons]
    · funext j
      simp [List.getD_cons_succ]

theorem specTCC_sum (c : Nat) :
    ∀ (lens : List Nat) (rem : Nat),
      rem ≤ (lens.map (fun len => min c len)).sum →
      (specTotalCareCounts c lens rem).sum = rem := by
  intro lens
  induction lens with
  | nil =>
    intro rem h
    simp only [List.map_nil, List.sum_nil, Nat.le_zero] at h
    simp [specTotalCareCounts, h]
  | cons len rest ih =>
    intro rem h
    simp only [List.map_cons, List.sum_cons] at h
    simp only [specTotalCareCounts, List.sum_cons]
    have hrest : rem - min c (min rem len) ≤ (rest.map (fun len => min c len)).sum := by
      omega
    rw [ih _ hrest]
    omega

theorem nurseLens_getD (k : Nat) (hk : 0 < k) (cr : CategorizedRooms) {i : Nat}
    (hi : i < k) :
    (nurseLens k cr).getD i 0
      = (cr.highAcuityRooms ++ (cr.highFallRiskRooms ++ cr.regularRooms)).length / k
        + (if i < (cr.highAcuityRooms
            ++ (cr.highFallRiskRooms ++ cr.regularRooms)).length % k then 1 else 0) := by
  unfold nurseLens
  rw [getD_range_map' _ 0 hi]
  unfold nurseDistOrder
  rw [selectIdx_length _ hk i _ 0 hk, cntRR_zero_start _ hk hi]

theorem nurseLens_sum (k : Nat) (hk : 0 < k) (cr : CategorizedRooms) :
    (nurseLens k cr).sum
      = (cr.highAcuityRooms ++ (cr.highFallRiskRooms ++ cr.regularRooms)).length := by
  unfold nurseLens
  rw [range_map_sum]
  unfold nurseDistOrder
  exact selectIdx_sum_length _ hk _ 0 hk

theorem ceilDiv_mul_ge (p k : Nat) (hk : 0 < k) : p ≤ k * ceilDiv p k := by
  unfold ceilDiv
  have hdm := Nat.div_add_mod (p + k - 1) k
  have hmlt : (p + k - 1) % k < k := Nat.mod_lt _ hk
  omega

/-- C9: for every input accepted by validation with duplicate-free acuity and
fall-risk lists, the sum over all nurses of `totalCareRooms.length` equals
`patientsWithoutAideSupport`: the ceil quota combined with the round-robin
balance never leaves an uncovered patient unassigned. -/
theorem claim_C9 (input : AssignmentInputData) (res : AssignmentResults)
    (hok : calculateStaffAssignments input = .ok res)
    (hndA : input.highAcuityRooms.Nodup) (hndF : input.highFallRiskRooms.Nodup) :
    (res.nurseAssignments.map (fun na => na.totalCareRooms.length)).sum
      = res.aideCoverageData.patientsWithoutAideSupport := by
  obtain ⟨hcap, htot, hacd, hnur, haid⟩ := calc_ok_elim input res hok
  have hpval : res.aideCoverageData.patientsWithoutAideSupport
      = (workingSet input).length - input.totalAides * input.maxPatientsPerAide := by
    rw [hacd]
    rfl
  rcases Nat.eq_zero_or_pos input.totalNurses with hk0 | hk
  · rw [hnur, hk0, createNurseAssignments_nil]
    have hlen0 : (workingSet input).length = 0 := by rw [hk0] at hcap; omega
    rw [hpval, hlen0]
    simp
  · have hperm := categorize_append_perm (workingSet input) input.highAcuityRooms
      input.highFallRiskRooms (workingSet_nodup input) hndA hndF
    rw [hnur, createNurseAssignments_closed _ _ hk _ _ _, hpval]
    rw [List.map_map, range_map_sum]
    set k := input.totalNurses with hkdef
    set p := (workingSet input).length - input.totalAides * input.maxPatientsPerAide
      with hpdef
    set cr := categorizeRoomsByPriority (workingSet input) input.highAcuityRooms
      input.highFallRiskRooms with hcrdef
    clear_value k p cr
    have hterm : ∀ i ∈ Finset.range k,
        ((fun na => na.totalCareRooms.length)
          ∘ (fun i => finalizeAssignment (preNurse k cr p (calcRoomStatusData input) i))) i
        = (specTotalCareCounts (ceilDiv p k) (nurseLens k cr) p).getD i 0 := by
      intro i hik
      simp only [Function.comp_apply, finalizeAssignment, preNurse]
      rw [sortRooms_length, List.length_drop]
      have hle : nurseQuota k cr p i ≤ (nurseDistOrder k cr i).length := by
        unfold nurseQuota
        refine Nat.le_trans (specTCC_getD_le _ _ _ _) ?_
        unfold nurseLens
        rw [getD_range_map' _ 0 (Finset.mem_range.mp hik)]
      unfold nurseQuota at hle ⊢
      omega
    rw [Finset.sum_congr rfl hterm]
    set q := specTotalCareCounts (ceilDiv p k) (nurseLens k cr) p with hqdef
    have hlenq : q.length = k := by
      rw [hqdef, specTotalCareCounts_length]
      unfold nurseLens
      simp
    rw [show (∑ i ∈ Finset.range k, q.getD i 0) = q.sum from by
      rw [← hlenq, ← range_map_sum]
      exact sum_getD q]
    rw [hqdef]
    have hn'eq : (cr.highAcuityRooms ++ (cr.highFallRiskRooms ++ cr.regularRooms)).length
        = (workingSet input).length := hperm.length_eq
    have hple : p ≤ (cr.highAcuityRooms
        ++ (cr.highFallRiskRooms ++ cr.regularRooms)).length := by
      rw [hn'eq]
      omega
    apply specTCC_sum
    by_cases hc : ceilDiv p k
        ≤ (cr.highAcuityRooms ++ (cr.highFallRiskRooms ++ cr.regularRooms)).length / k
    · have hmap : (nurseLens k cr).map (fun len => min (ceilDiv p k) len)
          = List.replicate k (ceilDiv p k) := by
        unfold nurseLens
        rw [List.map_map]
        rw [List.map_congr_left (g := fun _ => ceilDiv p k) (fun i hi => by
          have hform := nurseLens_getD k hk cr (List.mem_range.mp hi)
          unfold nurseLens at hform
          rw [getD_range_map' _ 0 (List.mem_range.mp hi)] at hform
          show min (ceilDiv p k) ((nurseDistOrder k cr i).length) = ceilDiv p k
          refine Nat.min_eq_left (Nat.le_trans hc ?_)
          rw [hform]
          exact Nat.le_add_right _ _)]
        rw [List.map_const', List.length_range]
      rw [hmap, List.sum_replicate, smul_eq_mul]
      exact ceilDiv_mul_ge p k hk
    · have hmap : (nurseLens k cr).map (fun len => min (ceilDiv p k) len)
          = nurseLens k cr := by
        conv_rhs => rw [← List.map_id (nurseLens k cr)]
        apply List.map_congr_left
        intro a ha
        obtain ⟨i, hi, rfl⟩ := List.mem_map.mp ha
        have hform := nurseLens_getD k hk cr (List.mem_range.mp hi)
        unfold nurseLens at hform
        rw [getD_range_map' _ 0 (List.mem_range.mp hi)] at hform
        show min (ceilDiv p k) ((nurseDistOrder k cr i).length)
          = id ((nurseDistOrder k cr i).length)
        rw [id_eq]
        refine Nat.min_eq_right (Nat.le_trans ?_
          (Nat.succ_le_of_lt (Nat.lt_of_not_le hc)))
        rw [hform]
        split <;> simp
      rw [hmap, nurseLens_sum k hk cr]
      exact hple

/-- C9 witness: at a concrete input with 2 nurses, 5 rooms and no aides, the
total-care lengths sum to the uncovered patient count. -/
theorem claim_C9_witness :
    ((calcResult c3InputW).nurseAssignments.map (fun na => na.totalCareRooms.length)).sum
      = (calcResult c3InputW).aideCoverageData.patientsWithoutAideSupport :=
  claim_C9 c3InputW (calcResult c3InputW) (by decide) (by decide) (by decide)

/-- C6 counterexample: validation passes, but a duplicated raw acuity entry
makes the single nurse's `totalCareRooms` equal `[2, 2]` — not
duplicate-free, so the invariant fails for this valid input. -/
theorem claim_C6_counterexample :
    (calculateStaffAssignments c6Input).map
        (fun r => (r.nurseAssignments.getD 0 default).totalCareRooms)
      = Except.ok [2, 2]
    ∧ ¬ ([2, 2] : List Int).Nodup := by decide

theorem order_count_le_workingSet (input : AssignmentInputData)
    (hndA : input.highAcuityRooms.Nodup) (hndF : input.highFallRiskRooms.Nodup)
    (hk : 0 < input.totalNurses) {i : Nat} (hi : i < input.totalNurses) (x : Int) :
    (nurseDistOrder input.totalNurses
        (categorizeRoomsByPriority (workingSet input) input.highAcuityRooms
          input.highFallRiskRooms) i).count x
      ≤ (workingSet input).count x := by
  have hperm := categorize_append_perm (workingSet input) input.highAcuityRooms
    input.highFallRiskRooms (workingSet_nodup input) hndA hndF
  have hsum := selectIdx_sum_count input.totalNurses hk
    ((categorizeRoomsByPriority (workingSet input) input.highAcuityRooms
        input.highFallRiskRooms).highAcuityRooms
      ++ ((categorizeRoomsByPriority (workingSet input) input.highAcuityRooms
        input.highFallRiskRooms).highFallRiskRooms
        ++ (categorizeRoomsByPriority (workingSet input) input.highAcuityRooms
          input.highFallRiskRooms).regularRooms)) hk x
  rw [hperm.count_eq x] at hsum
  rw [← hsum]
  unfold nurseDistOrder
  exact Finset.single_le_sum (f := fun j => (selectIdx input.totalNurses _ 0 j).count x)
    (fun j _ => Nat.zero_le _) (Finset.mem_range.mpr hi)

theorem order_nodup (input : AssignmentInputData)
    (hndA : input.highAcuityRooms.Nodup) (hndF : input.highFallRiskRooms.Nodup)
    (hk : 0 < input.totalNurses) {i : Nat} (hi : i < input.totalNurses) :
    (nurseDistOrder input.totalNurses
        (categorizeRoomsByPriority (workingSet input) input.highAcuityRooms
          input.highFallRiskRooms) i).Nodup := by
  rw [List.nodup_iff_count_le_one]
  intro x
  refine Nat.le_trans (order_count_le_workingSet input hndA hndF hk hi x) ?_
  exact List.nodup_iff_count_le_one.mp (workingSet_nodup input) x

/-- C6 amended: for every valid input whose raw acuity and fall-risk lists
are duplicate-free, each nurse's `totalCareRooms` is a subset of its
`assignedRooms`, sorted ascending and duplicate-free; no room appears in two
nurses' `totalCareRooms`; and when `patientsWithoutAideSupport = 0` every
`totalCareRooms` list is empty. -/
theorem claim_C6_amended (input : AssignmentInputData) (res : AssignmentResults)
    (hok : calculateStaffAssignments input = .ok res)
    (hndA : input.highAcuityRooms.Nodup) (hndF : input.highFallRiskRooms.Nodup) :
    (∀ na ∈ res.nurseAssignments,
        (∀ room ∈ na.totalCareRooms, room ∈ na.assignedRooms)
        ∧ na.totalCareRooms.Sorted (· ≤ ·)
        ∧ na.totalCareRooms.Nodup)
    ∧ (∀ i j, i < input.totalNurses → j < input.totalNurses → i ≠ j →
        (res.nurseAssignments.getD i default).totalCareRooms.Disjoint
          (res.nurseAssignments.getD j default).totalCareRooms)
    ∧ (res.aideCoverageData.patientsWithoutAideSupport = 0 →
        ∀ na ∈ res.nurseAssignments, na.totalCareRooms = []) := by
  obtain ⟨hcap, htot, hacd, hnur, haid⟩ := calc_ok_elim input res hok
  have hpval : res.aideCoverageData.patientsWithoutAideSupport
      = (workingSet input).length - input.totalAides * input.maxPatientsPerAide := by
    rw [hacd]
    rfl
  rcases Nat.eq_zero_or_pos input.totalNurses with hk0 | hk
  · rw [hnur, hk0, createNurseAssignments_nil]
    refine ⟨fun na hna => absurd hna (List.not_mem_nil na), ?_, ?_⟩
    · intro i j hi _ _
      exact absurd hi (Nat.not_lt_zero i)
    · intro _ na hna
      exact absurd hna (List.not_mem_nil na)
  · rw [hnur, createNurseAssignments_closed _ _ hk _ _ _]
    have htcmem : ∀ i, i < input.totalNurses → ∀ room,
        room ∈ (finalizeAssignment (preNurse input.totalNurses
          (categorizeRoomsByPriority (workingSet input) input.highAcuityRooms
            input.highFallRiskRooms)
          ((workingSet input).length - input.totalAides * input.maxPatientsPerAide)
          (calcRoomStatusData input) i)).totalCareRooms →
        room ∈ nurseDistOrder input.totalNurses
          (categorizeRoomsByPriority (workingSet input) input.highAcuityRooms
            input.highFallRiskRooms) i := by
      intro i hi room hroom
      simp only [finalizeAssignment, preNurse] at hroom
      rw [sortRooms_mem] at hroom
      exact (List.drop_sublist _ _).mem hroom
    refine ⟨?_, ?_, ?_⟩
    · intro na hna
      obtain ⟨i, hirange, rfl⟩ := List.mem_map.mp hna
      have hi := List.mem_range.mp hirange
      refine ⟨?_, ?_, ?_⟩
      · intro room hroom
        have := htcmem i hi room hroom
        simp only [finalizeAssignment, preNurse]
        rw [sortRooms_mem]
        exact this
      · exact sortRooms_sorted _
      · simp only [finalizeAssignment, preNurse]
        exact sortRooms_nodup (((List.drop_sublist _ _)).nodup
          (order_nodup input hndA hndF hk hi))
    · intro i j hi hj hij room hri hrj
      rw [getD_range_map _ hi] at hri
      rw [getD_range_map _ hj] at hrj
      have hmi := htcmem i hi room hri
      have hmj := htcmem j hj room hrj
      have hci : 1 ≤ (nurseDistOrder input.totalNurses
          (categorizeRoomsByPriority (workingSet input) input.highAcuityRooms
            input.highFallRiskRooms) i).count room := List.count_pos_iff.mpr hmi
      have hcj : 1 ≤ (nurseDistOrder input.totalNurses
          (categorizeRoomsByPriority (workingSet input) input.highAcuityRooms
            input.highFallRiskRooms) j).count room := List.count_pos_iff.mpr hmj
      have hperm := categorize_append_perm (workingSet input) input.highAcuityRooms
        input.highFallRiskRooms (workingSet_nodup input) hndA hndF
      have hsum := selectIdx_sum_count input.totalNurses hk
        ((categorizeRoomsByPriority (workingSet input) input.highAcuityRooms
            input.highFallRiskRooms).highAcuityRooms
          ++ ((categorizeRoomsByPriority (workingSet input) input.highAcuityRooms
            input.highFallRiskRooms).highFallRiskRooms
            ++ (categorizeRoomsByPriority (workingSet input) input.highAcuityRooms
              input.highFallRiskRooms).regularRooms)) hk room
      rw [hperm.count_eq room] at hsum
      have hwsle : (workingSet input).count room ≤ 1 :=
        List.nodup_iff_count_le_one.mp (workingSet_nodup input) room
      have hpair : ({i, j} : Finset Nat) ⊆ Finset.range input.totalNurses := by
        intro t ht
        rcases Finset.mem_insert.mp ht with rfl | ht
        · exact Finset.mem_range.mpr hi
        · rw [Finset.mem_singleton.mp ht]
          exact Finset.mem_range.mpr hj
      have hsumpair := Finset.sum_le_sum_of_subset (f := fun t =>
        (selectIdx input.totalNurses
          ((categorizeRoomsByPriority (workingSet input) input.highAcuityRooms
              input.highFallRiskRooms).highAcuityRooms
            ++ ((categorizeRoomsByPriority (workingSet input) input.highAcuityRooms
              input.highFallRiskRooms).highFallRiskRooms
              ++ (categorizeRoomsByPriority (workingSet input) input.highAcuityRooms
                input.highFallRiskRooms).regularRooms)) 0 t).count room) hpair
      rw [Finset.sum_pair hij] at hsumpair
      beta_reduce at hsumpair
      unfold nurseDistOrder at hci hcj
      have h2 : 2 ≤ (workingSet input).count room :=
        Nat.le_trans (by omega) (Nat.le_trans hsumpair (Nat.le_of_eq hsum))
      omega
    · intro hp0 na hna
      obtain ⟨i, hirange, rfl⟩ := List.mem_map.mp hna
      rw [hpval] at hp0
      simp only [finalizeAssignment, preNurse]
      rw [hp0, nurseQuota_zero, Nat.sub_zero, List.drop_length]
      rfl

/-- C6 witness: the subset/sorted/nodup conclusions at a concrete valid
input. -/
theorem claim_C6_witness :
    ((calcResult c3InputW).nurseAssignments.getD 0 default).totalCareRooms.Sorted (· ≤ ·)
    ∧ ((calcResult c3InputW).nurseAssignments.getD 0 default).totalCareRooms.Nodup := by
  have h := (claim_C6_amended c3InputW (calcResult c3InputW) (by decide) (by decide)
    (by decide)).1
  have hmem : (calcResult c3InputW).nurseAssignments.getD 0 default
      ∈ (calcResult c3InputW).nurseAssignments := by
    rw [List.getD_eq_getElem _ _ (by decide)]
    exact List.getElem_mem _
  exact ⟨(h _ hmem).2.1, (h _ hmem).2.2⟩

/-- C5 counterexample: rooms 1–4, acuity room 3, one nurse, uncovered count
2. The claim's priority rule would pick room 3 (rank 2) before any regular
room, but the code picks the last rooms of the unsorted assignment order,
`[2, 4]`, leaving the acuity room 3 out. -/
theorem claim_C5_counterexample :
    (calculateStaffAssignments c5Input).map
        (fun r => ((r.nurseAssignments.getD 0 default).highAcuityRooms,
          (r.nurseAssignments.getD 0 default).totalCareRooms))
      = Except.ok ([3], [2, 4])
    ∧ (3 : Int) ∉ ([2, 4] : List Int)
    ∧ (calculateStaffAssignments c5Input).map
        (fun r => r.aideCoverageData.patientsWithoutAideSupport) = Except.ok 2 := by
  decide

/-- C5 amended: when `uncoveredCount > 0`, nurse `i` receives
`min(ceil(uncoveredCount / totalNurses), remaining, own room count)`
total-care rooms (`remaining` decreasing in nurse-index order), and the
rooms chosen are the LAST that many of the nurse's pre-finalization
distribution order (acuity, fall-risk, then regular arrival order), sorted
ascending afterwards — not the top-priority rooms. -/
theorem claim_C5_amended (input : AssignmentInputData) (res : AssignmentResults)
    (hok : calculateStaffAssignments input = .ok res)
    (hp : 0 < res.aideCoverageData.patientsWithoutAideSupport)
    (i : Nat) (hi : i < input.totalNurses) :
    (res.nurseAssignments.getD i default).totalCareRooms
      = sortRooms ((nurseOrderOf input i).drop
          ((nurseOrderOf input i).length - nurseQuotaOf input i))
    ∧ (res.nurseAssignments.getD i default).totalCareRooms.length
      = nurseQuotaOf input i := by
  have hk : 0 < input.totalNurses := Nat.lt_of_le_of_lt (Nat.zero_le i) hi
  obtain ⟨hcap, htot, hacd, hnur, haid⟩ := calc_ok_elim input res hok
  rw [hnur, createNurseAssignments_closed _ _ hk _ _ _, getD_range_map _ hi]
  have hle : nurseQuota input.totalNurses (crOf input) (uncoveredOf input) i
      ≤ (nurseDistOrder input.totalNurses (crOf input) i).length := by
    unfold nurseQuota
    refine Nat.le_trans (specTCC_getD_le _ _ _ _) ?_
    unfold nurseLens
    rw [getD_range_map' _ 0 hi]
  constructor
  · rfl
  · simp only [finalizeAssignment, preNurse]
    rw [sortRooms_length, List.length_drop]
    unfold nurseQuotaOf crOf uncoveredOf
    unfold crOf uncoveredOf at hle
    unfold nurseQuota at hle ⊢
    omega

/-- C5 witness: the amended characterization at a concrete one-nurse input
with three uncovered patients. -/
theorem claim_C5_witness :
    ((calcResult c5InputW).nurseAssignments.getD 0 default).totalCareRooms
      = sortRooms ((nurseOrderOf c5InputW 0).drop
          ((nurseOrderOf c5InputW 0).length - nurseQuotaOf c5InputW 0))
    ∧ ((calcResult c5InputW).nurseAssignments.getD 0 default).totalCareRooms.length
      = nurseQuotaOf c5InputW 0 :=
  claim_C5_amended c5InputW (calcResult c5InputW) (by decide) (by decide) 0 (by decide)

theorem aideLoop_closed (covered : List Int) (totalAides base extra : Nat)
    (rsd : RoomStatusData) :
    ∀ (d i : Nat), i + d = totalAides →
      aideLoop covered totalAides base extra rsd i (base * i + min i extra)
        = (List.range' i d).map (aideSlice covered base extra rsd) := by
  intro d
  induction d with
  | zero =>
    intro i hi
    unfold aideLoop
    rw [dif_neg (by omega)]
    simp [List.range']
  | succ d ih =>
    intro i hi
    unfold aideLoop
    rw [dif_pos (by omega)]
    simp only []
    have harith : base * i + min i extra + (base + if i < extra then 1 else 0)
        = base * (i + 1) + min (i + 1) extra := by
      have hms : base * (i + 1) = base * i + base := Nat.mul_succ base i
      by_cases hie : i < extra
      · rw [hms, Nat.min_eq_left (by omega), Nat.min_eq_left (by omega), if_pos hie]
        omega
      · rw [hms, Nat.min_eq_right (by omega), Nat.min_eq_right (by omega), if_neg hie]
        omega
    rw [harith, ih (i + 1) (by omega)]
    rw [show List.range' i (d + 1) = i :: List.range' (i + 1) d from rfl, List.map_cons]
    rfl

theorem createAideAssignments_closed (allRooms : List Int) (totalAides cap : Nat)
    (rsd : RoomStatusData) (ht : 0 < totalAides) :
    createAideAssignments allRooms totalAides cap rsd
      = (List.range totalAides).map
          (aideSlice (allRooms.take cap) ((allRooms.take cap).length / totalAides)
            ((allRooms.take cap).length % totalAides) rsd) := by
  unfold createAideAssignments
  rw [if_neg (by omega)]
  simp only []
  have h0 := aideLoop_closed (allRooms.take cap) totalAides
    ((allRooms.take cap).length / totalAides) ((allRooms.take cap).length % totalAides)
    rsd totalAides 0 (by omega)
  simp only [Nat.mul_zero, Nat.zero_min, Nat.add_zero] at h0
  rw [h0, List.range_eq_range']

theorem sum_ite_lt (extra : Nat) :
    ∀ t, (∑ j ∈ Finset.range t, (if j < extra then 1 else 0)) = min t extra := by
  intro t
  induction t with
  | zero => simp
  | succ t ih =>
    rw [Finset.sum_range_succ, ih]
    split_ifs <;> omega

theorem aideCnt_sum (base extra t : Nat) (hextra : extra ≤ t) :
    ((List.range' 0 t).map (fun j => base + if j < extra then 1 else 0)).sum
      = base * t + extra := by
  rw [← List.range_eq_range', range_map_sum, Finset.sum_add_distrib, Finset.sum_const,
    Finset.card_range, smul_eq_mul, sum_ite_lt]
  have : min t extra = extra := by omega
  rw [this, Nat.mul_comm]

theorem slices_flatten_aux (l : List Int) (base extra : Nat) :
    ∀ (d i : Nat),
      ((List.range' i d).map
          (fun j => (l.drop (base * j + min j extra)).take
            (base + if j < extra then 1 else 0))).flatten
        = (l.drop (base * i + min i extra)).take
            (((List.range' i d).map (fun j => base + if j < extra then 1 else 0)).sum) := by
  intro d
  induction d with
  | zero => intro i; simp
  | succ d ih =>
    intro i
    have harith : base * (i + 1) + min (i + 1) extra
        = base * i + min i extra + (base + if i < extra then 1 else 0) := by
      have hms : base * (i + 1) = base * i + base := Nat.mul_succ base i
      by_cases hie : i < extra
      · rw [hms, Nat.min_eq_left (by omega), Nat.min_eq_left (by omega), if_pos hie]
        omega
      · rw [hms, Nat.min_eq_right (by omega), Nat.min_eq_right (by omega), if_neg hie]
        omega
    rw [show List.range' i (d + 1) = i :: List.range' (i + 1) d from rfl]
    rw [List.map_cons, List.flatten_cons, List.map_cons, List.sum_cons, ih (i + 1), harith]
    conv_rhs => rw [List.take_add]
    congr 1
    rw [List.drop_drop]

theorem aideSlices_flatten (l : List Int) (t : Nat) (ht : 0 < t) (rsd : RoomStatusData) :
    (((List.range t).map (aideSlice l (l.length / t) (l.length % t) rsd)).map
        (fun sa => sa.assignedRooms)).flatten = l := by
  rw [List.map_map]
  rw [show ((fun sa => sa.assignedRooms) ∘ aideSlice l (l.length / t) (l.length % t) rsd)
      = (fun j => (l.drop ((l.length / t) * j + min j (l.length % t))).take
        ((l.length / t) + if j < (l.length % t) then 1 else 0)) from rfl]
  rw [List.range_eq_range', slices_flatten_aux l (l.length / t) (l.length % t) t 0]
  rw [aideCnt_sum _ _ t (Nat.le_of_lt (Nat.mod_lt _ ht))]
  have hdm := Nat.div_add_mod l.length t
  rw [show l.length / t * t + l.length % t = l.length from by
    rw [Nat.mul_comm]
    omega]
  simp

/-- C8: for every valid input, the aide assignments cover exactly the first
`min(aideCapacity, n)` rooms of the ascending-sorted working set, split as
contiguous slices with aide `i` getting `floor(m / totalAides)` rooms plus
one extra when `i < m mod totalAides` (`m` the covered-room count); and with
no aides, `aideAssignments` is empty and `uncoveredCount` equals
`totalPatientCount`. -/
theorem claim_C8 (input : AssignmentInputData) (res : AssignmentResults)
    (hok : calculateStaffAssignments input = .ok res) :
    ((workingSet input).Sorted (· ≤ ·))
    ∧ ((res.aideAssignments.map (fun sa => sa.assignedRooms)).flatten
        = coveredRoomsOf input)
    ∧ (∀ i, i < input.totalAides →
        (res.aideAssignments.getD i default).assignedRooms
          = ((coveredRoomsOf input).drop
              (aideBaseOf input * i + min i (aideExtraOf input))).take
              (aideBaseOf input + if i < aideExtraOf input then 1 else 0)
        ∧ (res.aideAssignments.getD i default).patientCount
          = aideBaseOf input + (if i < aideExtraOf input then 1 else 0))
    ∧ (input.totalAides = 0 →
        res.aideAssignments = []
        ∧ res.aideCoverageData.patientsWithoutAideSupport = res.totalPatientCount) := by
  obtain ⟨hcap, htot, hacd, hnur, haid⟩ := calc_ok_elim input res hok
  refine ⟨workingSet_sorted input, ?_, ?_, ?_⟩
  · rcases Nat.eq_zero_or_pos input.totalAides with ht0 | ht
    · rw [haid]
      unfold createAideAssignments
      rw [if_pos ht0]
      unfold coveredRoomsOf
      rw [ht0, Nat.zero_mul, List.take_zero]
      rfl
    · rw [haid, createAideAssignments_closed _ _ _ _ ht]
      exact aideSlices_flatten _ _ ht _
  · intro i hi
    have ht : 0 < input.totalAides := Nat.lt_of_le_of_lt (Nat.zero_le i) hi
    rw [haid, createAideAssignments_closed _ _ _ _ ht, getD_range_map _ hi]
    exact ⟨rfl, rfl⟩
  · intro ht0
    constructor
    · rw [haid]
      unfold createAideAssignments
      rw [if_pos ht0]
    · rw [hacd, htot, ht0]
      unfold calculateAideCoverageData
      simp

/-- C8 witness: the coverage and zero-aide boundary conclusions at a
concrete input with no aides. -/
theorem claim_C8_witness :
    (((calcResult c3InputW).aideAssignments.map (fun sa => sa.assignedRooms)).flatten
      = coveredRoomsOf c3InputW)
    ∧ ((calcResult c3InputW).aideAssignments = []
      ∧ (calcResult c3InputW).aideCoverageData.patientsWithoutAideSupport
        = (calcResult c3InputW).totalPatientCount) := by
  have h := claim_C8 c3InputW (calcResult c3InputW) (by decide)
  exact ⟨h.2.1, h.2.2.2 rfl⟩
